import Mathlib

/-!
# Shopping-cart backend: cart mutations and checkout

A shallow embedding of the cart, checkout and order-history routes of
`backend/server.js`.

Modelling conventions
* The three MongoDB collections are lists of documents in insertion order;
  `findById` returns the first document carrying the identifier and a `save`
  rewrites that same document.
* `ObjectId`s are natural numbers.
* Stock counts and cart quantities are integers.  In the routes a `Number`
  holding a price or an amount of money is carried as the exact rational that
  its decimal denotes, and `round2` rounds that exact value; what is proved on
  the routes is about which documents are read and written, which lines an
  order holds and which response is given.
* The values of subtotal, tax and total are settled on IEEE-754 doubles: the
  section on amounts on doubles embeds the arithmetic of checkout with every
  operation rounded to binary64 and `toFixed(2)` applied to the double
  (`Num64`, `checkoutTotals64`).
* Request handlers run one after another; each handler is a function from the
  database before the request to the response and the database after it.
  Two sections depart from this: checkout split at the await between its
  reads and its writes, and checkout with a write that rejects.
* The identifier and the creation time that `Order.create` assigns are inputs
  of `checkout`.
-/

namespace ShoppingCart

/-! ## Documents (section 4 of server.js) -/

/-- Document of `productSchema` (description and image carry no logic). -/
structure Product where
  _id : Nat
  name : String
  category : Option String
  price : ℚ
  stock : Int
deriving DecidableEq

/-- Element of `userSchema.cart`. -/
structure CartItem where
  productId : Nat
  quantity : Int
deriving DecidableEq

/-- Document of `userSchema` (name, email and password carry no cart logic). -/
structure User where
  _id : Nat
  cart : List CartItem
deriving DecidableEq

/-- Element of `orderSchema.items`. -/
structure OrderItem where
  productId : Nat
  quantity : Int
  priceAtPurchase : ℚ
deriving DecidableEq

/-- Document of `orderSchema`. -/
structure Order where
  _id : Nat
  user : Nat
  items : List OrderItem
  subtotal : ℚ
  tax : ℚ
  total : ℚ
  createdAt : Nat
deriving DecidableEq

/-- The database: the `products`, `users` and `orders` collections. -/
structure Db where
  products : List Product
  users : List User
  orders : List Order
deriving DecidableEq

/-! ## Collection primitives -/

/-- Models `Product.findById(id)`. -/
def findProduct (ps : List Product) (id : Nat) : Option Product :=
  ps.find? (fun p => p._id == id)

/-- Models `User.findById(id)`. -/
def findUser (us : List User) (id : Nat) : Option User :=
  us.find? (fun u => u._id == id)

/-- Models `product.save()`: rewrites the stored document that has the same `_id`. -/
def saveProduct : List Product → Product → List Product
  | [], _ => []
  | q :: qs, p => if q._id = p._id then p :: qs else q :: saveProduct qs p

/-- Models `user.save()`: rewrites the stored document that has the same `_id`. -/
def saveUser : List User → User → List User
  | [], _ => []
  | v :: vs, u => if v._id = u._id then u :: vs else v :: saveUser vs u

/-- A cart element after `.populate("cart.productId")`: the reference is
replaced by the product document, or by `null` when it does not resolve. -/
structure PopulatedItem where
  productId : Option Product
  quantity : Int
deriving DecidableEq

/-- Models `.populate("cart.productId")` over a cart. -/
def populate (ps : List Product) (cart : List CartItem) : List PopulatedItem :=
  cart.map (fun it => { productId := findProduct ps it.productId, quantity := it.quantity })

/-! ## Money -/

/-- The constant `taxRate = 0.07` as the exact decimal; the double that the code
multiplies by is `Num64.ofRat (7 / 100)`. -/
def taxRate : ℚ := 7 / 100

/-- The hundredth nearest to the exact value `x`, a tie going to the one of
larger magnitude: `+(x).toFixed(2)` where amounts are carried as exact
rationals.  On doubles the operation is `Num64.toFixed2`. -/
def round2 (x : ℚ) : ℚ :=
  if x < 0 then -((⌊(-x) * 100 + 1 / 2⌋ : ℤ) : ℚ) / 100
  else ((⌊x * 100 + 1 / 2⌋ : ℤ) : ℚ) / 100

/-- An amount with at most two decimal places: a whole number of hundredths. -/
def TwoDecimals (x : ℚ) : Prop := (x * 100).den = 1

instance instDecidableTwoDecimals (x : ℚ) : Decidable (TwoDecimals x) := by
  unfold TwoDecimals; infer_instance

/-! ## Cart routes -/

/-- Responses of the three cart-mutation routes. -/
inductive CartResponse where
  /-- Status 404 "User not found" -/
  | userNotFound
  /-- Status 404 "Product not found" -/
  | productNotFound
  /-- Status 404 "Item not found in cart" -/
  | itemNotInCart
  /-- Status 400 "Not enough stock for this product." -/
  | insufficientStock
  /-- Status 200 "Item added to cart" / "Cart updated" / "Item removed from cart" -/
  | ok
deriving DecidableEq

/-- Models `user.cart.find(item => item.productId.toString() === productId)`. -/
def findItem (cart : List CartItem) (productId : Nat) : Option CartItem :=
  cart.find? (fun it => it.productId == productId)

/-- Assignment `item.quantity = q` on the element that `findItem` returned
(the first element for the product). -/
def setItemQuantity : List CartItem → Nat → Int → List CartItem
  | [], _, _ => []
  | it :: rest, productId, q =>
    if it.productId = productId then { it with quantity := q } :: rest
    else it :: setItemQuantity rest productId q

/-- Models `user.cart.filter(it => it.productId.toString() !== productId)`. -/
def removeItem (cart : List CartItem) (productId : Nat) : List CartItem :=
  cart.filter (fun it => it.productId != productId)

/-- Route `POST /api/cart`: add one unit of a product to the user's cart. -/
def addOne (db : Db) (userId productId : Nat) : CartResponse × Db :=
  match findUser db.users userId with
  | none => (.userNotFound, db)
  | some user =>
    match findProduct db.products productId with
    | none => (.productNotFound, db)
    | some product =>
      let existingItem := findItem user.cart productId
      let newQuantity : Int :=
        match existingItem with
        | some e => e.quantity + 1
        | none => 1
      if newQuantity > product.stock then (.insufficientStock, db)
      else
        let cart :=
          match existingItem with
          | some _ => setItemQuantity user.cart productId newQuantity
          | none => user.cart ++ [{ productId := productId, quantity := 1 }]
        (.ok, { db with users := saveUser db.users { user with cart := cart } })

/-- Route `PUT /api/cart/:productId`: set a line's quantity, or drop the line when
the quantity is zero or negative. -/
def setQuantity (db : Db) (userId productId : Nat) (quantity : Int) : CartResponse × Db :=
  match findUser db.users userId with
  | none => (.userNotFound, db)
  | some user =>
    match findProduct db.products productId with
    | none => (.productNotFound, db)
    | some product =>
      match findItem user.cart productId with
      | none => (.itemNotInCart, db)
      | some _ =>
        if quantity ≤ 0 then
          let cart := removeItem user.cart productId
          (.ok, { db with users := saveUser db.users { user with cart := cart } })
        else if quantity > product.stock then (.insufficientStock, db)
        else
          let cart := setItemQuantity user.cart productId quantity
          (.ok, { db with users := saveUser db.users { user with cart := cart } })

/-- Route `DELETE /api/cart/:productId`: drop the product's lines from the cart. -/
def remove (db : Db) (userId productId : Nat) : CartResponse × Db :=
  match findUser db.users userId with
  | none => (.userNotFound, db)
  | some user =>
    let cart := removeItem user.cart productId
    (.ok, { db with users := saveUser db.users { user with cart := cart } })

/-! ## Checkout route -/

/-- The `order` object of the success response. -/
structure OrderSummary where
  id : Nat
  subtotal : ℚ
  tax : ℚ
  total : ℚ
deriving DecidableEq

/-- Responses of `POST /api/checkout`. -/
inductive CheckoutResponse where
  /-- Status 404 "User not found" -/
  | userNotFound
  /-- Status 400 "Cart is empty" -/
  | emptyCart
  /-- Status 400 "One of the products no longer exists." -/
  | productNotFound
  /-- Status 400 "Not enough stock for \"name\"." -/
  | insufficientStock (name : String)
  /-- Status 200 "Checkout successful" with the order summary -/
  | ok (order : OrderSummary)
  /-- Status 500 "Server error" (the `catch` block) -/
  | serverError
deriving DecidableEq

/-- The `message` field of a checkout response. -/
def CheckoutResponse.message : CheckoutResponse → String
  | .userNotFound => "User not found"
  | .emptyCart => "Cart is empty"
  | .productNotFound => "One of the products no longer exists."
  | .insufficientStock name => "Not enough stock for \"" ++ name ++ "\"."
  | .ok _ => "Checkout successful"
  | .serverError => "Server error"

/-- The first `for` loop of checkout: per line, the existence check, the
stock check, the running subtotal and the order item. -/
def validateLoop :
    List PopulatedItem → ℚ → List OrderItem → Except CheckoutResponse (ℚ × List OrderItem)
  | [], subtotal, orderItems => .ok (subtotal, orderItems)
  | cartItem :: rest, subtotal, orderItems =>
    match cartItem.productId with
    | none => .error .productNotFound
    | some product =>
      if cartItem.quantity > product.stock then
        .error (.insufficientStock product.name)
      else
        let lineTotal := product.price * (cartItem.quantity : ℚ)
        validateLoop rest (subtotal + lineTotal)
          (orderItems ++ [{ productId := product._id, quantity := cartItem.quantity,
                            priceAtPurchase := product.price }])

/-- The second `for` loop of checkout: re-read each product, subtract the
ordered quantity, clamp at zero, save.  Reading `._id` of a `null` reference
throws; the products written so far are then what the `error` carries. -/
def decrementLoop : List PopulatedItem → List Product → Except (List Product) (List Product)
  | [], ps => .ok ps
  | cartItem :: rest, ps =>
    match cartItem.productId with
    | none => .error ps
    | some ref =>
      match findProduct ps ref._id with
      | none => decrementLoop rest ps
      | some product =>
        let stock := product.stock - cartItem.quantity
        let stock := if stock < 0 then 0 else stock
        decrementLoop rest (saveProduct ps { product with stock := stock })

/-- Route `POST /api/checkout`.  `now` is the value of `Date.now` and `newId` the
identifier given to the order by `Order.create`. -/
def checkout (db : Db) (userId now newId : Nat) : CheckoutResponse × Db :=
  match findUser db.users userId with
  | none => (.userNotFound, db)
  | some user =>
    let cart := populate db.products user.cart
    if cart.length = 0 then (.emptyCart, db)
    else
      match validateLoop cart 0 [] with
      | .error e => (e, db)
      | .ok (subtotal, orderItems) =>
        let tax := round2 (subtotal * taxRate)
        let total := round2 (subtotal + tax)
        match decrementLoop cart db.products with
        | .error ps => (.serverError, { db with products := ps })
        | .ok ps =>
          let order : Order :=
            { _id := newId, user := user._id, items := orderItems,
              subtotal := subtotal, tax := tax, total := total, createdAt := now }
          (.ok { id := newId, subtotal := subtotal, tax := tax, total := total },
            { products := ps,
              users := saveUser db.users { user with cart := [] },
              orders := db.orders ++ [order] })

/-! ## Sequences of requests -/

/-- One request against the cart or checkout routes. -/
inductive Request where
  | addOne (userId productId : Nat)
  | setQuantity (userId productId : Nat) (quantity : Int)
  | remove (userId productId : Nat)
  | checkout (userId now newId : Nat)
deriving DecidableEq

/-- The database after serving one request. -/
def step (db : Db) : Request → Db
  | .addOne u p => (addOne db u p).2
  | .setQuantity u p q => (setQuantity db u p q).2
  | .remove u p => (remove db u p).2
  | .checkout u now newId => (checkout db u now newId).2

/-- The database after serving a list of requests one after another. -/
def run (db : Db) (reqs : List Request) : Db :=
  reqs.foldl step db

/-- The `n` consecutive `POST /api/cart` requests of one user for one
product: the responses in order and the database after the last one. -/
def addOneRepeat (userId productId : Nat) : Nat → Db → List CartResponse × Db
  | 0, db => ([], db)
  | n + 1, db =>
    let first := addOne db userId productId
    let rest := addOneRepeat userId productId n first.2
    (first.1 :: rest.1, rest.2)

/-- The quantity of the cart's line for a product, 0 when the cart has no
line for it. -/
def lineQuantity (cart : List CartItem) (productId : Nat) : Int :=
  match findItem cart productId with
  | some item => item.quantity
  | none => 0

/-- The cart invariant of the data model: at most one line per product and
every quantity at least 1. -/
def CartWf (cart : List CartItem) : Prop :=
  (cart.map (fun it => it.productId)).Nodup ∧ ∀ it ∈ cart, 1 ≤ it.quantity

/-! ## Read routes -/

/-- Element of the `items` array answered by `GET /api/cart`. -/
structure CartViewItem where
  productId : Nat
  name : String
  category : Option String
  price : ℚ
  quantity : Int
deriving DecidableEq

/-- Responses of `GET /api/cart`. -/
inductive GetCartResponse where
  /-- Status 404 "User not found" -/
  | userNotFound
  /-- Status 200 with the cart items -/
  | ok (items : List CartViewItem)
deriving DecidableEq

/-- Route `GET /api/cart`: the cart with product details; a line whose
product is gone maps to `null` and `.filter(Boolean)` drops it.  The handler
saves nothing. -/
def getCart (db : Db) (userId : Nat) : GetCartResponse × Db :=
  match findUser db.users userId with
  | none => (.userNotFound, db)
  | some user =>
    let items :=
      ((populate db.products user.cart).map (fun item =>
        match item.productId with
        | none => none
        | some product =>
          some { productId := product._id, name := product.name,
                 category := product.category, price := product.price,
                 quantity := item.quantity : CartViewItem })).reduceOption
    (.ok items, db)

/-- Element of the `items` array of a formatted order. -/
structure OrderItemView where
  name : String
  category : Option String
  quantity : Int
  price : ℚ
deriving DecidableEq

/-- Element of the `orders` array answered by `GET /api/orders/my`. -/
structure OrderView where
  id : Nat
  createdAt : Nat
  subtotal : ℚ
  tax : ℚ
  total : ℚ
  items : List OrderItemView
deriving DecidableEq

/-- Models `Order.find({ user: userId }).sort({ createdAt: -1 })`.  MongoDB
leaves the relative order of documents with equal `createdAt` open; here they
keep their archive order. -/
def findOrders (os : List Order) (userId : Nat) : List Order :=
  (os.filter (fun o => o.user == userId)).insertionSort
    (fun a b => b.createdAt ≤ a.createdAt)

/-- The `orders.map` callback of `GET /api/orders/my`, with
`.populate("items.productId")` resolved against the products. -/
def formatOrder (ps : List Product) (order : Order) : OrderView :=
  { id := order._id,
    createdAt := order.createdAt,
    subtotal := order.subtotal,
    tax := order.tax,
    total := order.total,
    items := order.items.map (fun item =>
      match findProduct ps item.productId with
      | some product =>
        { name := product.name, category := product.category,
          quantity := item.quantity, price := item.priceAtPurchase }
      | none =>
        { name := "Product removed", category := some "",
          quantity := item.quantity, price := item.priceAtPurchase }) }

/-- Route `GET /api/orders/my`: the caller's orders, newest first.  The
handler saves nothing. -/
def getMyOrders (db : Db) (userId : Nat) : List OrderView × Db :=
  let orders := findOrders db.orders userId
  let formatted := orders.map (formatOrder db.products)
  (formatted, db)

/-! ## Messages of the cart routes -/

/-- The `message` field of a failure response of the cart routes; the
success message differs from route to route and is left out. -/
def CartResponse.failureMessage : CartResponse → Option String
  | .userNotFound => some "User not found"
  | .productNotFound => some "Product not found"
  | .itemNotInCart => some "Item not found in cart"
  | .insufficientStock => some "Not enough stock for this product."
  | .ok => none

/-! ## The cart page -/

/-- The totals of `CartPage.jsx` over the items answered by `GET /api/cart`:
`calculateSubtotal` (a `reduce` from 0), then `tax` and `total`. -/
def cartPageTotals (items : List CartViewItem) : ℚ × ℚ × ℚ :=
  let subtotal := items.foldl (fun sum item => sum + item.price * (item.quantity : ℚ)) 0
  let tax := round2 (subtotal * taxRate)
  let total := round2 (subtotal + tax)
  (subtotal, tax, total)

/-! ## Checkout in two phases

Between its reads and its writes the checkout handler awaits the database, so
another request can run in between.  `checkoutValidate` is the handler up to
the computation of the total, `checkoutCommit` the writes that follow, run
against the database as it is by then. -/

/-- What a checkout request holds once validation has passed. -/
structure PendingCheckout where
  user : User
  cart : List PopulatedItem
  orderItems : List OrderItem
  subtotal : ℚ
  tax : ℚ
  total : ℚ
deriving DecidableEq

/-- The read phase of `POST /api/checkout`: load and populate the user, check
the cart, run the first loop, compute tax and total. -/
def checkoutValidate (db : Db) (userId : Nat) : Except CheckoutResponse PendingCheckout :=
  match findUser db.users userId with
  | none => .error .userNotFound
  | some user =>
    let cart := populate db.products user.cart
    if cart.length = 0 then .error .emptyCart
    else
      match validateLoop cart 0 [] with
      | .error e => .error e
      | .ok (subtotal, orderItems) =>
        let tax := round2 (subtotal * taxRate)
        let total := round2 (subtotal + tax)
        .ok { user := user, cart := cart, orderItems := orderItems,
              subtotal := subtotal, tax := tax, total := total }

/-- The write phase of `POST /api/checkout`: the second loop, `Order.create`
and the save of the user with an empty cart. -/
def checkoutCommit (db : Db) (pending : PendingCheckout) (now newId : Nat) :
    CheckoutResponse × Db :=
  match decrementLoop pending.cart db.products with
  | .error ps => (.serverError, { db with products := ps })
  | .ok ps =>
    let order : Order :=
      { _id := newId, user := pending.user._id, items := pending.orderItems,
        subtotal := pending.subtotal, tax := pending.tax, total := pending.total,
        createdAt := now }
    (.ok { id := newId, subtotal := pending.subtotal, tax := pending.tax,
           total := pending.total },
      { products := ps,
        users := saveUser db.users { pending.user with cart := [] },
        orders := db.orders ++ [order] })

/-! ## Checkout when a write rejects

Every `save` and `Order.create` of the handler is awaited inside one `try`
block whose `catch` answers 500 and undoes nothing.  A budget says how many
writes succeed before one rejects; `none` means that no write rejects. -/

/-- One write against the budget: `none` when this write rejects, otherwise
the budget that is left. -/
def spendWrite : Option Nat → Option (Option Nat)
  | none => some none
  | some 0 => none
  | some (k + 1) => some (some k)

/-- The second loop of checkout under a write budget.  A rejected `save`
leaves the products written so far, carried by `error`. -/
def decrementLoopFaulty :
    List PopulatedItem → List Product → Option Nat →
      Except (List Product) (List Product × Option Nat)
  | [], ps, budget => .ok (ps, budget)
  | cartItem :: rest, ps, budget =>
    match cartItem.productId with
    | none => .error ps
    | some ref =>
      match findProduct ps ref._id with
      | none => decrementLoopFaulty rest ps budget
      | some product =>
        match spendWrite budget with
        | none => .error ps
        | some budget =>
          let stock := product.stock - cartItem.quantity
          let stock := if stock < 0 then 0 else stock
          decrementLoopFaulty rest (saveProduct ps { product with stock := stock }) budget

/-- Route `POST /api/checkout` under a write budget. -/
def checkoutFaulty (db : Db) (userId now newId : Nat) (budget : Option Nat) :
    CheckoutResponse × Db :=
  match checkoutValidate db userId with
  | .error e => (e, db)
  | .ok pending =>
    match decrementLoopFaulty pending.cart db.products budget with
    | .error ps => (.serverError, { db with products := ps })
    | .ok (ps, budget) =>
      match spendWrite budget with
      | none => (.serverError, { db with products := ps })
      | some budget =>
        let order : Order :=
          { _id := newId, user := pending.user._id, items := pending.orderItems,
            subtotal := pending.subtotal, tax := pending.tax, total := pending.total,
            createdAt := now }
        match spendWrite budget with
        | none =>
          (.serverError, { products := ps, users := db.users, orders := db.orders ++ [order] })
        | some _ =>
          (.ok { id := newId, subtotal := pending.subtotal, tax := pending.tax,
                 total := pending.total },
            { products := ps,
              users := saveUser db.users { pending.user with cart := [] },
              orders := db.orders ++ [order] })

/-! ## Amounts on doubles

The routes above carry an amount as the exact rational that its decimal
denotes.  This section embeds the arithmetic of checkout as JavaScript runs
it, on IEEE-754 binary64 values: every `*` and `+` rounds its exact result to
the nearest double, and `toFixed(2)` reads the exact value of the double it is
applied to. -/

/-- A JavaScript `Number`: a finite double given by its exact value, an
infinity, or `NaN`.  The sign of a zero is not kept. -/
inductive Num64 where
  | finite (value : ℚ)
  | infinity (negative : Bool)
  | nan
deriving DecidableEq

/-- The integer nearest to `num / den`, a tie going to the even one. -/
def roundHalfEven (num den : Nat) : Nat :=
  let q := num / den
  let r := num % den
  if 2 * r < den then q
  else if den < 2 * r then q + 1
  else if q % 2 = 0 then q else q + 1

/-- Position of the leading bit of `n`, by halving at most `fuel` times. -/
def leadingBitFuel : Nat → Nat → Nat
  | 0, _ => 0
  | fuel + 1, n => if n < 2 then 0 else leadingBitFuel fuel (n / 2) + 1

/-- Position of the leading bit of `n`: the floor of its binary logarithm, and
0 for 0. -/
def leadingBit (n : Nat) : Nat := leadingBitFuel n n

/-- The exponent `e` for which the doubles around the positive rational
`num / den` are the multiples of `2 ^ e`: 52 below the exponent of its leading
bit, and -1074 in the subnormal range. -/
def ulpExponent (num den : Nat) : Int :=
  let k : Int := (leadingBit num : Int) - (leadingBit den : Int)
  let below : Bool :=
    if 0 ≤ k then decide (num < den * 2 ^ k.toNat) else decide (num * 2 ^ (-k).toNat < den)
  let l : Int := if below then k - 1 else k
  max (l - 52) (-1074)

/-- The `Number` for a real value: round to nearest, ties to even, in
binary64; a magnitude that rounds to `2 ^ 1024` or more gives an infinity.
This is the value of a decimal literal and the result of an arithmetic
operator whose exact result is `x`. -/
def Num64.ofRat (x : ℚ) : Num64 :=
  if x = 0 then .finite 0
  else
    let num := x.num.natAbs
    let e := ulpExponent num x.den
    let m := if 0 ≤ e then roundHalfEven num (x.den * 2 ^ e.toNat)
             else roundHalfEven (num * 2 ^ (-e).toNat) x.den
    if 972 ≤ e ∨ (e = 971 ∧ 2 ^ 53 ≤ m) then .infinity (decide (x < 0))
    else
      let v : ℚ := if 0 ≤ e then ((m * 2 ^ e.toNat : Nat) : ℚ)
                   else (m : ℚ) / ((2 ^ (-e).toNat : Nat) : ℚ)
      .finite (if x < 0 then -v else v)

/-- The operator `*` on `Number`s. -/
def Num64.mul : Num64 → Num64 → Num64
  | .finite a, .finite b => Num64.ofRat (a * b)
  | .finite a, .infinity s => if a = 0 then .nan else .infinity (xor s (decide (a < 0)))
  | .infinity s, .finite b => if b = 0 then .nan else .infinity (xor s (decide (b < 0)))
  | .infinity s, .infinity t => .infinity (xor s t)
  | _, _ => .nan

/-- The operator `+` on `Number`s. -/
def Num64.add : Num64 → Num64 → Num64
  | .finite a, .finite b => Num64.ofRat (a + b)
  | .finite _, .infinity s => .infinity s
  | .infinity s, .finite _ => .infinity s
  | .infinity s, .infinity t => if s = t then .infinity s else .nan
  | _, _ => .nan

/-- Models `+(x).toFixed(2)` on a `Number`.  Below `10 ^ 21` in magnitude,
`toFixed(2)` prints the hundredth nearest to the exact value of `x`, the one of
larger magnitude on a tie, and unary `+` reads the printed decimal back; from
`10 ^ 21` on, and for an infinity or `NaN`, it prints `x` as `String(x)` does
and `+` gives `x` back. -/
def Num64.toFixed2 : Num64 → Num64
  | .finite x =>
    if (10 : ℚ) ^ 21 ≤ |x| then .finite x
    else
      let n : ℤ := ⌊|x| * 100 + 1 / 2⌋
      if x < 0 then Num64.ofRat (-((n : ℚ) / 100)) else Num64.ofRat ((n : ℚ) / 100)
  | v => v

/-- The amounts of checkout (lines 598 to 640 of server.js) on doubles, for
the cart lines that pass the checks of the first loop, each given by the unit
price of its product and its quantity: the `subtotal` accumulated from 0, then
`tax` and `total`. -/
def checkoutTotals64 (lines : List (ℚ × Int)) : Num64 × Num64 × Num64 :=
  let subtotal := lines.foldl
    (fun subtotal line =>
      let lineTotal := Num64.mul (Num64.ofRat line.1) (Num64.ofRat (line.2 : ℚ))
      Num64.add subtotal lineTotal)
    (.finite 0)
  let taxRate := Num64.ofRat (7 / 100)
  let tax := Num64.toFixed2 (Num64.mul subtotal taxRate)
  let total := Num64.toFixed2 (Num64.add subtotal tax)
  (subtotal, tax, total)

/-- A `Number` that is not negative: a finite value from 0 up, or `Infinity`. -/
def Num64.NonNeg : Num64 → Prop
  | .finite x => 0 ≤ x
  | .infinity s => s = false
  | .nan => False

/-- The `Number` of a non-negative whole number of cents: the value of a
decimal `n / 100`. -/
def Num64.IsCents (v : Num64) : Prop := ∃ n : ℕ, v = Num64.ofRat ((n : ℚ) / 100)

/-- What `+(x).toFixed(2)` can give on a `Number` that is not negative: a whole
number of cents, `Infinity`, or a finite value from `10 ^ 21` up. -/
def Num64.IsCentsOrLarge (v : Num64) : Prop :=
  v.IsCents ∨ v = .infinity false ∨ ∃ x : ℚ, v = .finite x ∧ (10 : ℚ) ^ 21 ≤ x

/-! ## Example databases -/

/-- Two products priced 10.00 and 5.00; user 7 holds two of the first and
three of the second. -/
def dbPricing : Db :=
  { products := [⟨1, "Kettle", none, 10, 5⟩, ⟨2, "Mug", none, 5, 3⟩],
    users := [⟨7, [⟨1, 2⟩, ⟨2, 3⟩]⟩],
    orders := [] }

/-- Product P priced 20.00 with stock 5; user 7 holds three of it and user 8
has an empty cart. -/
def dbScenario : Db :=
  { products := [⟨1, "P", some "Books", 20, 5⟩, ⟨2, "Q", none, 3, 4⟩],
    users := [⟨7, [⟨1, 3⟩]⟩, ⟨8, []⟩],
    orders := [] }

/-- Checkout failures: user 7 holds a line that exceeds stock followed by a
line whose product is gone; user 8 holds a good line, a line whose product is
gone, then a line that exceeds stock; user 9 holds a good line followed by two
lines that exceed stock; user 10 holds a single line whose product is gone. -/
def dbCheckoutErrors : Db :=
  { products := [⟨1, "Kettle", none, 10, 1⟩, ⟨2, "Mug", none, 5, 3⟩],
    users := [⟨7, [⟨1, 5⟩, ⟨99, 1⟩]⟩, ⟨8, [⟨2, 3⟩, ⟨99, 1⟩, ⟨1, 5⟩]⟩,
              ⟨9, [⟨2, 3⟩, ⟨1, 5⟩, ⟨2, 9⟩]⟩, ⟨10, [⟨99, 1⟩]⟩],
    orders := [] }

/-- A product with stock 3 and a product with no stock; user 7 has an empty
cart. -/
def dbCeiling : Db :=
  { products := [⟨1, "Lamp", none, 12, 3⟩, ⟨2, "Shade", none, 4, 0⟩],
    users := [⟨7, []⟩],
    orders := [] }

/-- An archive of four orders: three of user 7, created at times 5, 9 and 2,
and one of user 8; the product of the order created at time 9 is gone. -/
def dbArchive : Db :=
  { products := [⟨1, "Kettle", some "Kitchen", 11, 1⟩],
    users := [⟨7, []⟩, ⟨8, []⟩],
    orders := [⟨100, 7, [⟨1, 1, 10⟩], 10, 7 / 10, 107 / 10, 5⟩,
               ⟨101, 8, [⟨1, 2, 10⟩], 20, 14 / 10, 214 / 10, 6⟩,
               ⟨102, 7, [⟨3, 1, 2⟩], 2, 14 / 100, 214 / 100, 9⟩,
               ⟨103, 7, [⟨1, 1, 10⟩], 10, 7 / 10, 107 / 10, 2⟩] }

/-- One unit of a product in stock and two users who each hold one of it. -/
def dbRace : Db :=
  { products := [⟨1, "Lamp", none, 12, 1⟩],
    users := [⟨7, [⟨1, 1⟩]⟩, ⟨8, [⟨1, 1⟩]⟩],
    orders := [] }

/-- User 7 holds one kettle and has an earlier order created at time 9. -/
def dbRepeatBuyer : Db :=
  { products := [⟨1, "Kettle", some "Kitchen", 10, 4⟩],
    users := [⟨7, [⟨1, 1⟩]⟩],
    orders := [⟨100, 7, [⟨1, 2, 10⟩], 20, 14 / 10, 214 / 10, 9⟩] }

/-! ## Lemmas on the collection primitives -/

theorem findProduct_id {ps : List Product} {id : Nat} {p : Product}
    (h : findProduct ps id = some p) : p._id = id := by
  have := List.find?_some h
  simpa using this

theorem findUser_id {us : List User} {id : Nat} {u : User}
    (h : findUser us id = some u) : u._id = id := by
  have := List.find?_some h
  simpa using this

theorem findProduct_mem {ps : List Product} {id : Nat} {p : Product}
    (h : findProduct ps id = some p) : p ∈ ps :=
  List.mem_of_find?_eq_some h

theorem findProduct_saveProduct (ps : List Product) (p : Product) (id : Nat) :
    findProduct (saveProduct ps p) id =
      if id = p._id then (findProduct ps id).map (fun _ => p) else findProduct ps id := by
  induction ps with
  | nil => simp [saveProduct, findProduct]
  | cons q qs ih =>
    unfold findProduct at ih ⊢
    by_cases hq : q._id = p._id
    · by_cases hid : id = p._id
      · subst hid
        simp [saveProduct, hq]
      · have h1 : ¬ p._id = id := fun h => hid h.symm
        have h2 : ¬ q._id = id := fun h => hid (by rw [← h, hq])
        simp [saveProduct, hq, hid, h1, List.find?_cons, h2]
    · by_cases hid : id = p._id
      · subst hid
        have := ih
        simp only [if_true] at this
        simp [saveProduct, hq, List.find?_cons, this]
      · have := ih
        simp only [hid, if_false] at this
        simp only [saveProduct, hq, if_false, hid, List.find?_cons, this]

theorem findUser_saveUser (us : List User) (u : User) (id : Nat) :
    findUser (saveUser us u) id =
      if id = u._id then (findUser us id).map (fun _ => u) else findUser us id := by
  induction us with
  | nil => simp [saveUser, findUser]
  | cons v vs ih =>
    unfold findUser at ih ⊢
    by_cases hv : v._id = u._id
    · by_cases hid : id = u._id
      · subst hid
        simp [saveUser, hv]
      · have h1 : ¬ u._id = id := fun h => hid h.symm
        have h2 : ¬ v._id = id := fun h => hid (by rw [← h, hv])
        simp [saveUser, hv, hid, h1, List.find?_cons, h2]
    · by_cases hid : id = u._id
      · subst hid
        have := ih
        simp only [if_true] at this
        simp [saveUser, hv, List.find?_cons, this]
      · have := ih
        simp only [hid, if_false] at this
        simp only [saveUser, hv, if_false, hid, List.find?_cons, this]

theorem saveProduct_stock_nonneg (ps : List Product) (p : Product)
    (hps : ∀ q ∈ ps, 0 ≤ q.stock) (hp : 0 ≤ p.stock) :
    ∀ q ∈ saveProduct ps p, 0 ≤ q.stock := by
  induction ps with
  | nil => simp [saveProduct]
  | cons a as ih =>
    intro q hq
    simp only [saveProduct] at hq
    split at hq
    · rcases List.mem_cons.mp hq with rfl | hq
      · exact hp
      · exact hps q (List.mem_cons_of_mem _ hq)
    · rcases List.mem_cons.mp hq with rfl | hq
      · exact hps _ (List.mem_cons_self _ _)
      · exact ih (fun r hr => hps r (List.mem_cons_of_mem _ hr)) q hq

/-! ## Lemmas on the routes -/


theorem decrementLoop_stock_nonneg (items : List PopulatedItem) :
    ∀ ps : List Product, (∀ q ∈ ps, 0 ≤ q.stock) →
      ∀ ps', (decrementLoop items ps = .ok ps' ∨ decrementLoop items ps = .error ps') →
        ∀ q ∈ ps', 0 ≤ q.stock := by
  induction items with
  | nil =>
    intro ps hps ps' h
    simp [decrementLoop] at h
    subst h
    exact hps
  | cons it rest ih =>
    intro ps hps ps' h
    unfold decrementLoop at h
    cases hr : it.productId with
    | none =>
      simp [hr] at h
      subst h
      exact hps
    | some ref =>
      simp only [hr] at h
      cases hf : findProduct ps ref._id with
      | none =>
        simp only [hf] at h
        exact ih ps hps ps' h
      | some product =>
        simp only [hf] at h
        refine ih _ (saveProduct_stock_nonneg ps _ hps ?_) ps' h
        show 0 ≤ (if product.stock - it.quantity < 0 then 0 else product.stock - it.quantity)
        split <;> omega

theorem addOne_products (db : Db) (u p : Nat) : (addOne db u p).2.products = db.products := by
  unfold addOne
  dsimp only
  repeat' split
  all_goals rfl

theorem setQuantity_products (db : Db) (u p : Nat) (q : Int) :
    (setQuantity db u p q).2.products = db.products := by
  unfold setQuantity
  dsimp only
  repeat' split
  all_goals rfl

theorem remove_products (db : Db) (u p : Nat) : (remove db u p).2.products = db.products := by
  unfold remove
  repeat' split
  all_goals rfl

theorem checkout_cases (db : Db) (userId now newId : Nat) :
    (findUser db.users userId = none ∧
        checkout db userId now newId = (.userNotFound, db)) ∨
    (∃ user, findUser db.users userId = some user ∧ user.cart = [] ∧
        checkout db userId now newId = (.emptyCart, db)) ∨
    (∃ user e, findUser db.users userId = some user ∧ user.cart ≠ [] ∧
        validateLoop (populate db.products user.cart) 0 [] = .error e ∧
        checkout db userId now newId = (e, db)) ∨
    (∃ user subtotal orderItems ps, findUser db.users userId = some user ∧ user.cart ≠ [] ∧
        validateLoop (populate db.products user.cart) 0 [] = .ok (subtotal, orderItems) ∧
        decrementLoop (populate db.products user.cart) db.products = .error ps ∧
        checkout db userId now newId = (.serverError, { db with products := ps })) ∨
    (∃ user subtotal orderItems ps, findUser db.users userId = some user ∧ user.cart ≠ [] ∧
        validateLoop (populate db.products user.cart) 0 [] = .ok (subtotal, orderItems) ∧
        decrementLoop (populate db.products user.cart) db.products = .ok ps ∧
        checkout db userId now newId =
          (.ok { id := newId, subtotal := subtotal, tax := round2 (subtotal * taxRate),
                 total := round2 (subtotal + round2 (subtotal * taxRate)) },
            { products := ps,
              users := saveUser db.users { user with cart := [] },
              orders := db.orders ++
                [{ _id := newId, user := user._id, items := orderItems, subtotal := subtotal,
                   tax := round2 (subtotal * taxRate),
                   total := round2 (subtotal + round2 (subtotal * taxRate)),
                   createdAt := now }] })) := by
  cases hu : findUser db.users userId with
  | none => left; exact ⟨rfl, by simp [checkout, hu]⟩
  | some user =>
    right
    by_cases hc : user.cart = []
    · left; exact ⟨user, rfl, hc, by simp [checkout, hu, hc, populate]⟩
    · right
      have hlen : ¬ (populate db.products user.cart).length = 0 := by
        simpa [populate] using hc
      cases hv : validateLoop (populate db.products user.cart) 0 [] with
      | error e =>
        left
        exact ⟨user, e, rfl, hc, hv, by simp only [checkout, hu, hlen, if_false, hv]⟩
      | ok r =>
        obtain ⟨subtotal, orderItems⟩ := r
        right
        cases hd : decrementLoop (populate db.products user.cart) db.products with
        | error ps =>
          left
          exact ⟨user, subtotal, orderItems, ps, rfl, hc, hv, hd,
            by simp only [checkout, hu, hlen, if_false, hv, hd]⟩
        | ok ps =>
          right
          exact ⟨user, subtotal, orderItems, ps, rfl, hc, hv, hd,
            by simp only [checkout, hu, hlen, if_false, hv, hd]⟩

theorem checkout_stock_nonneg (db : Db) (u now newId : Nat)
    (h : ∀ q ∈ db.products, 0 ≤ q.stock) :
    ∀ q ∈ (checkout db u now newId).2.products, 0 ≤ q.stock := by
  rcases checkout_cases db u now newId with ⟨_, he⟩ | ⟨_, _, _, he⟩ | ⟨_, _, _, _, _, he⟩ |
    ⟨_, _, _, ps, _, _, _, hd, he⟩ | ⟨_, _, _, ps, _, _, _, hd, he⟩
  · rw [he]; exact h
  · rw [he]; exact h
  · rw [he]; exact h
  · rw [he]; exact decrementLoop_stock_nonneg _ _ h ps (Or.inr hd)
  · rw [he]; exact decrementLoop_stock_nonneg _ _ h ps (Or.inl hd)

theorem step_stock_nonneg (db : Db) (r : Request) (h : ∀ q ∈ db.products, 0 ≤ q.stock) :
    ∀ q ∈ (step db r).products, 0 ≤ q.stock := by
  cases r with
  | addOne u p => simpa [step, addOne_products] using h
  | setQuantity u p q => simpa [step, setQuantity_products] using h
  | remove u p => simpa [step, remove_products] using h
  | checkout u now newId => exact checkout_stock_nonneg db u now newId h

theorem populate_cons (ps : List Product) (it : CartItem) (rest : List CartItem) :
    populate ps (it :: rest) =
      { productId := findProduct ps it.productId, quantity := it.quantity } :: populate ps rest := by
  simp [populate]

theorem validateLoop_populate_ok (ps : List Product) (cart : List CartItem) :
    ∀ (sub : ℚ) (acc : List OrderItem) (s : ℚ) (ois : List OrderItem),
      validateLoop (populate ps cart) sub acc = .ok (s, ois) →
        (∀ it ∈ cart, ∃ p, findProduct ps it.productId = some p ∧ it.quantity ≤ p.stock) ∧
        ∃ ois', ois = acc ++ ois' ∧
          s = sub + (ois'.map (fun oi => oi.priceAtPurchase * (oi.quantity : ℚ))).sum ∧
          List.Forall₂ (fun (it : CartItem) (oi : OrderItem) =>
            oi.productId = it.productId ∧ oi.quantity = it.quantity ∧
              ∃ p, findProduct ps it.productId = some p ∧ oi.priceAtPurchase = p.price)
            cart ois' := by
  induction cart with
  | nil =>
    intro sub acc s ois h
    simp [populate, validateLoop] at h
    obtain ⟨rfl, rfl⟩ := h
    exact ⟨by simp, [], by simp, by simp, List.Forall₂.nil⟩
  | cons it rest ih =>
    intro sub acc s ois h
    rw [populate_cons, validateLoop] at h
    cases hf : findProduct ps it.productId with
    | none => simp [hf] at h
    | some p =>
      simp only [hf] at h
      by_cases hq : it.quantity > p.stock
      · simp [hq] at h
      · simp only [hq, if_false] at h
        obtain ⟨hall, ois', rfl, rfl, hfa⟩ := ih _ _ _ _ h
        refine ⟨?_, ⟨p._id, it.quantity, p.price⟩ :: ois', by simp, ?_, ?_⟩
        · intro l hl
          rcases List.mem_cons.mp hl with rfl | hl
          · exact ⟨p, hf, not_lt.mp hq⟩
          · exact hall l hl
        · simp only [List.map_cons, List.sum_cons]
          ring
        · exact List.Forall₂.cons ⟨findProduct_id hf, rfl, p, hf, rfl⟩ hfa

theorem validateLoop_populate_ok_of (ps : List Product) (cart : List CartItem) :
    ∀ (sub : ℚ) (acc : List OrderItem),
      (∀ it ∈ cart, ∃ p, findProduct ps it.productId = some p ∧ it.quantity ≤ p.stock) →
        ∃ r, validateLoop (populate ps cart) sub acc = .ok r := by
  induction cart with
  | nil => intro sub acc _; exact ⟨(sub, acc), by simp [populate, validateLoop]⟩
  | cons it rest ih =>
    intro sub acc h
    obtain ⟨p, hf, hq⟩ := h it (List.mem_cons_self _ _)
    rw [populate_cons, validateLoop]
    simp only [hf, not_lt.mpr hq, if_false]
    exact ih _ _ (fun l hl => h l (List.mem_cons_of_mem _ hl))

theorem validateLoop_populate_error (ps : List Product) (cart : List CartItem) :
    ∀ (sub : ℚ) (acc : List OrderItem) (e : CheckoutResponse),
      validateLoop (populate ps cart) sub acc = .error e →
        ∃ pre it post, cart = pre ++ it :: post ∧
          (∀ l ∈ pre, ∃ p, findProduct ps l.productId = some p ∧ l.quantity ≤ p.stock) ∧
          ((findProduct ps it.productId = none ∧ e = .productNotFound) ∨
           (∃ p, findProduct ps it.productId = some p ∧ it.quantity > p.stock ∧
              e = .insufficientStock p.name)) := by
  induction cart with
  | nil => intro sub acc e h; simp [populate, validateLoop] at h
  | cons it rest ih =>
    intro sub acc e h
    rw [populate_cons, validateLoop] at h
    cases hf : findProduct ps it.productId with
    | none =>
      simp only [hf] at h
      refine ⟨[], it, rest, rfl, by simp, Or.inl ⟨hf, ?_⟩⟩
      simpa using h.symm
    | some p =>
      simp only [hf] at h
      by_cases hq : it.quantity > p.stock
      · simp only [hq, if_true] at h
        refine ⟨[], it, rest, rfl, by simp, Or.inr ⟨p, hf, hq, ?_⟩⟩
        simpa using h.symm
      · simp only [hq, if_false] at h
        obtain ⟨pre, it', post, rfl, hpre, hcase⟩ := ih _ _ _ h
        refine ⟨it :: pre, it', post, rfl, ?_, hcase⟩
        intro l hl
        rcases List.mem_cons.mp hl with rfl | hl
        · exact ⟨p, hf, not_lt.mp hq⟩
        · exact hpre l hl

theorem validateLoop_populate_first_failure (ps : List Product)
    (pre : List CartItem) (it : CartItem) (post : List CartItem) :
    ∀ (sub : ℚ) (acc : List OrderItem),
      (∀ l ∈ pre, ∃ p, findProduct ps l.productId = some p ∧ l.quantity ≤ p.stock) →
        (findProduct ps it.productId = none →
          validateLoop (populate ps (pre ++ it :: post)) sub acc = .error .productNotFound) ∧
        (∀ p, findProduct ps it.productId = some p → it.quantity > p.stock →
          validateLoop (populate ps (pre ++ it :: post)) sub acc =
            .error (.insufficientStock p.name)) := by
  induction pre with
  | nil =>
    intro sub acc _
    constructor
    · intro hf
      rw [List.nil_append, populate_cons, validateLoop]
      simp only [hf]
    · intro p hf hq
      rw [List.nil_append, populate_cons, validateLoop]
      simp only [hf, hq, if_true]
  | cons l rest ih =>
    intro sub acc h
    obtain ⟨q, hfq, hqq⟩ := h l (List.mem_cons_self _ _)
    have hrest := fun sub acc => ih sub acc (fun l hl => h l (List.mem_cons_of_mem _ hl))
    constructor
    · intro hf
      rw [List.cons_append, populate_cons, validateLoop]
      simp only [hfq, not_lt.mpr hqq, if_false]
      exact (hrest _ _).1 hf
    · intro p hf hq
      rw [List.cons_append, populate_cons, validateLoop]
      simp only [hfq, not_lt.mpr hqq, if_false]
      exact (hrest _ _).2 p hf hq



theorem decrementLoop_populate_ok (ps0 : List Product) (cart : List CartItem)
    (hres : ∀ it ∈ cart, ∃ p, findProduct ps0 it.productId = some p) :
    ∀ ps : List Product, ∃ ps', decrementLoop (populate ps0 cart) ps = .ok ps' := by
  induction cart with
  | nil => intro ps; exact ⟨ps, by simp [populate, decrementLoop]⟩
  | cons it rest ih =>
    intro ps
    obtain ⟨ref, href⟩ := hres it (List.mem_cons_self _ _)
    have ih := ih (fun l hl => hres l (List.mem_cons_of_mem _ hl))
    rw [populate_cons, decrementLoop]
    simp only [href]
    cases hf : findProduct ps ref._id with
    | none => exact ih ps
    | some product => exact ih _

theorem decrementLoop_populate_frame (ps0 : List Product) (cart : List CartItem) (id : Nat)
    (hid : ∀ it ∈ cart, it.productId ≠ id) :
    ∀ ps ps' : List Product, decrementLoop (populate ps0 cart) ps = .ok ps' →
      findProduct ps' id = findProduct ps id := by
  induction cart with
  | nil =>
    intro ps ps' h
    simp [populate, decrementLoop] at h
    rw [h]
  | cons it rest ih =>
    intro ps ps' h
    have ih := ih (fun l hl => hid l (List.mem_cons_of_mem _ hl))
    rw [populate_cons, decrementLoop] at h
    cases href : findProduct ps0 it.productId with
    | none => simp [href] at h
    | some ref =>
      simp only [href] at h
      have hrid : ref._id = it.productId := findProduct_id href
      cases hf : findProduct ps ref._id with
      | none =>
        simp only [hf] at h
        exact ih ps ps' h
      | some product =>
        simp only [hf] at h
        rw [ih _ ps' h, findProduct_saveProduct]
        have hpid : product._id = ref._id := findProduct_id hf
        have hne : ¬ id = product._id := by
          rw [hpid, hrid]
          exact fun e => hid it (List.mem_cons_self _ _) e.symm
        simp only [hne, if_false]

theorem decrementLoop_populate_exact (ps0 : List Product) (cart : List CartItem)
    (hnd : (cart.map (fun it => it.productId)).Nodup)
    (hres : ∀ it ∈ cart, ∃ p, findProduct ps0 it.productId = some p) :
    ∀ ps ps' : List Product, decrementLoop (populate ps0 cart) ps = .ok ps' →
      ∀ it ∈ cart, ∀ p, findProduct ps it.productId = some p →
        findProduct ps' it.productId =
          some { p with stock :=
            if p.stock - it.quantity < 0 then 0 else p.stock - it.quantity } := by
  induction cart with
  | nil => intro ps ps' _ it hit; simp at hit
  | cons l rest ih =>
    intro ps ps' h it hit p hp
    obtain ⟨hl, hnd'⟩ := List.nodup_cons.mp hnd
    have hres' := fun x hx => hres x (List.mem_cons_of_mem l hx)
    have ih := ih hnd' hres'
    obtain ⟨ref, href⟩ := hres l (List.mem_cons_self _ _)
    have hrid : ref._id = l.productId := findProduct_id href
    rw [populate_cons, decrementLoop] at h
    simp only [href] at h
    rcases List.mem_cons.mp hit with rfl | hit'
    · -- the line being processed: later lines are for other products
      rw [hrid, hp] at h
      simp only at h
      have hframe := decrementLoop_populate_frame ps0 rest it.productId
        (fun x hx e => hl (List.mem_map.mpr ⟨x, hx, e⟩)) _ ps' h
      rw [hframe, findProduct_saveProduct]
      have : p._id = it.productId := findProduct_id hp
      simp [this, hp]
    · -- a later line: the current write is to another product
      have hne : it.productId ≠ l.productId := by
        intro e
        exact hl (List.mem_map.mpr ⟨it, hit', e⟩)
      cases hf : findProduct ps ref._id with
      | none =>
        simp only [hf] at h
        exact ih ps ps' h it hit' p hp
      | some product =>
        simp only [hf] at h
        refine ih _ ps' h it hit' p ?_
        rw [findProduct_saveProduct]
        have hpid : product._id = ref._id := findProduct_id hf
        have : ¬ it.productId = product._id := by rw [hpid, hrid]; exact hne
        simp only [this, if_false, hp]

theorem checkout_eq_of_validate_error (db : Db) (userId now newId : Nat) (user : User)
    (e : CheckoutResponse) (hu : findUser db.users userId = some user) (hc : user.cart ≠ [])
    (hv : validateLoop (populate db.products user.cart) 0 [] = .error e) :
    checkout db userId now newId = (e, db) := by
  have hlen : ¬ (populate db.products user.cart).length = 0 := by
    simpa [populate] using hc
  simp only [checkout, hu, hlen, if_false, hv]

theorem validateLoop_populate_missing (ps : List Product)
    (pre : List CartItem) (it : CartItem) (post : List CartItem)
    (hit : findProduct ps it.productId = none) :
    ∀ (sub : ℚ) (acc : List OrderItem),
      (∀ l ∈ pre, ∃ p, findProduct ps l.productId = some p) →
        (validateLoop (populate ps (pre ++ it :: post)) sub acc = .error .productNotFound ↔
          ∀ l ∈ pre, ∀ p, findProduct ps l.productId = some p → l.quantity ≤ p.stock) ∧
        (validateLoop (populate ps (pre ++ it :: post)) sub acc = .error .productNotFound ∨
          ∃ l ∈ pre, ∃ p, findProduct ps l.productId = some p ∧ l.quantity > p.stock ∧
            validateLoop (populate ps (pre ++ it :: post)) sub acc =
              .error (.insufficientStock p.name)) := by
  induction pre with
  | nil =>
    intro sub acc _
    have : validateLoop (populate ps ([] ++ it :: post)) sub acc = .error .productNotFound := by
      rw [List.nil_append, populate_cons, validateLoop]
      simp only [hit]
    exact ⟨⟨fun _ l hl => by simp at hl, fun _ => this⟩, Or.inl this⟩
  | cons l rest ih =>
    intro sub acc h
    obtain ⟨q, hq⟩ := h l (List.mem_cons_self _ _)
    have hrest := fun sub acc => ih sub acc (fun l hl => h l (List.mem_cons_of_mem _ hl))
    rw [List.cons_append, populate_cons, validateLoop]
    simp only [hq]
    by_cases hs : l.quantity > q.stock
    · simp only [hs, if_true]
      refine ⟨⟨fun h => (by cases h), fun hall => ?_⟩,
        Or.inr ⟨l, List.mem_cons_self _ _, q, hq, hs, rfl⟩⟩
      exact absurd (hall l (List.mem_cons_self _ _) q hq) (not_le.mpr hs)
    · simp only [hs, if_false]
      obtain ⟨h1, h2⟩ := hrest (sub + q.price * (l.quantity : ℚ))
        (acc ++ [{ productId := q._id, quantity := l.quantity, priceAtPurchase := q.price }])
      refine ⟨h1.trans ⟨fun hall x hx p hp => ?_, fun hall x hx => hall x (List.mem_cons_of_mem _ hx)⟩, ?_⟩
      · rcases List.mem_cons.mp hx with rfl | hx
        · rw [hq] at hp; cases hp; exact not_lt.mp hs
        · exact hall x hx p hp
      · rcases h2 with h2 | ⟨x, hx, p, hp, hgt, he⟩
        · exact Or.inl h2
        · exact Or.inr ⟨x, List.mem_cons_of_mem _ hx, p, hp, hgt, he⟩

/-! ## Lemmas on cart lines -/

theorem findItem_some {cart : List CartItem} {p : Nat} {e : CartItem}
    (h : findItem cart p = some e) : e.productId = p ∧ e ∈ cart := by
  refine ⟨?_, List.mem_of_find?_eq_some h⟩
  have := List.find?_some h
  simpa using this

theorem findItem_eq_none_iff (cart : List CartItem) (p : Nat) :
    findItem cart p = none ↔ ∀ l ∈ cart, l.productId ≠ p := by
  simp [findItem, List.find?_eq_none]

theorem findItem_split {cart : List CartItem} {p : Nat} {e : CartItem}
    (h : findItem cart p = some e) :
    ∃ pre post, cart = pre ++ e :: post ∧ (∀ l ∈ pre, l.productId ≠ p) ∧
      ∀ q, setItemQuantity cart p q = pre ++ { productId := p, quantity := q } :: post := by
  induction cart with
  | nil => simp [findItem] at h
  | cons a rest ih =>
    by_cases ha : a.productId = p
    · have hae : a = e := by
        simpa [findItem, List.find?_cons, ha] using h
      subst hae
      refine ⟨[], rest, rfl, by simp, fun q => ?_⟩
      simp [setItemQuantity, ha]
    · have hrest : findItem rest p = some e := by
        simpa [findItem, List.find?_cons, ha] using h
      obtain ⟨pre, post, hc, hpre, hset⟩ := ih hrest
      refine ⟨a :: pre, post, by rw [hc]; rfl, ?_, fun q => ?_⟩
      · intro l hl
        rcases List.mem_cons.mp hl with rfl | hl
        · exact ha
        · exact hpre l hl
      · simp [setItemQuantity, ha, hset q]

theorem removeItem_eq_self {cart : List CartItem} {p : Nat}
    (h : ∀ l ∈ cart, l.productId ≠ p) : removeItem cart p = cart := by
  unfold removeItem
  rw [List.filter_eq_self]
  intro l hl
  simpa using h l hl

theorem mem_removeItem {cart : List CartItem} {p : Nat} {l : CartItem} :
    l ∈ removeItem cart p ↔ l ∈ cart ∧ l.productId ≠ p := by
  simp [removeItem]

theorem findItem_removeItem (cart : List CartItem) (p : Nat) :
    findItem (removeItem cart p) p = none := by
  rw [findItem_eq_none_iff]
  intro l hl
  exact (mem_removeItem.mp hl).2

theorem removeItem_append (a b : List CartItem) (p : Nat) :
    removeItem (a ++ b) p = removeItem a p ++ removeItem b p := by
  simp [removeItem]

theorem removeItem_cons_same (l : CartItem) (rest : List CartItem) (p : Nat)
    (h : l.productId = p) : removeItem (l :: rest) p = removeItem rest p := by
  simp [removeItem, h]

theorem removeItem_idem (cart : List CartItem) (p : Nat) :
    removeItem (removeItem cart p) p = removeItem cart p :=
  removeItem_eq_self fun _ hl => (mem_removeItem.mp hl).2

theorem countP_eq_zero_of_findItem_none {cart : List CartItem} {p : Nat}
    (h : findItem cart p = none) :
    cart.countP (fun it => it.productId == p) = 0 := by
  rw [List.countP_eq_zero]
  intro l hl
  simpa using (findItem_eq_none_iff cart p).mp h l hl

theorem saveUser_self {us : List User} {id : Nat} {u : User}
    (h : findUser us id = some u) : saveUser us u = us := by
  induction us with
  | nil => rfl
  | cons v vs ih =>
    by_cases hv : v._id = id
    · have hvu : v = u := by simpa [findUser, List.find?_cons, hv] using h
      subst hvu
      simp [saveUser]
    · have hrest : findUser vs id = some u := by
        simpa [findUser, List.find?_cons, hv] using h
      have hid : u._id = id := findUser_id hrest
      have : ¬ v._id = u._id := by rw [hid]; exact hv
      simp [saveUser, this, ih hrest]

theorem findUser_saveUser_self {us : List User} {id : Nat} {u : User} (cart : List CartItem)
    (h : findUser us id = some u) :
    findUser (saveUser us ⟨u._id, cart⟩) id = some ⟨u._id, cart⟩ := by
  have hid : u._id = id := findUser_id h
  rw [findUser_saveUser]
  simp [hid, h]

theorem filter_saveUser (us : List User) (u : User) :
    (saveUser us u).filter (fun v => v._id != u._id) = us.filter (fun v => v._id != u._id) := by
  induction us with
  | nil => rfl
  | cons v vs ih =>
    by_cases hv : v._id = u._id
    · simp [saveUser, hv]
    · simp [saveUser, hv, ih]

theorem mem_saveUser {us : List User} {u v : User} (h : v ∈ saveUser us u) :
    v ∈ us ∨ v = u := by
  induction us with
  | nil => simp [saveUser] at h
  | cons w ws ih =>
    simp only [saveUser] at h
    split at h
    · rcases List.mem_cons.mp h with rfl | h
      · exact Or.inr rfl
      · exact Or.inl (List.mem_cons_of_mem _ h)
    · rcases List.mem_cons.mp h with rfl | h
      · exact Or.inl (List.mem_cons_self _ _)
      · rcases ih h with h | h
        · exact Or.inl (List.mem_cons_of_mem _ h)
        · exact Or.inr h

theorem findUser_mem {us : List User} {id : Nat} {u : User}
    (h : findUser us id = some u) : u ∈ us :=
  List.mem_of_find?_eq_some h

/-! ## The cart routes, case by case -/

theorem addOne_eq_of_line (db : Db) (userId productId : Nat) (user : User) (product : Product)
    (e : CartItem)
    (hu : findUser db.users userId = some user)
    (hp : findProduct db.products productId = some product)
    (hf : findItem user.cart productId = some e) :
    (e.quantity + 1 > product.stock →
      addOne db userId productId = (.insufficientStock, db)) ∧
    (e.quantity + 1 ≤ product.stock →
      addOne db userId productId =
        (.ok, ⟨db.products,
          saveUser db.users ⟨user._id, setItemQuantity user.cart productId (e.quantity + 1)⟩,
          db.orders⟩)) := by
  constructor
  · intro h
    simp only [addOne, hu, hp, hf, h, if_true]
  · intro h
    have h' : ¬ e.quantity + 1 > product.stock := not_lt.mpr h
    simp only [addOne, hu, hp, hf, h', if_false]

theorem addOne_eq_of_no_line (db : Db) (userId productId : Nat) (user : User)
    (product : Product)
    (hu : findUser db.users userId = some user)
    (hp : findProduct db.products productId = some product)
    (hf : findItem user.cart productId = none) :
    (1 > product.stock → addOne db userId productId = (.insufficientStock, db)) ∧
    (1 ≤ product.stock →
      addOne db userId productId =
        (.ok, ⟨db.products,
          saveUser db.users ⟨user._id, user.cart ++ [⟨productId, 1⟩]⟩,
          db.orders⟩)) := by
  constructor
  · intro h
    simp only [addOne, hu, hp, hf, h, if_true]
  · intro h
    have h' : ¬ (1 : Int) > product.stock := not_lt.mpr h
    simp only [addOne, hu, hp, hf, h', if_false]

theorem setQuantity_eq (db : Db) (userId productId : Nat) (quantity : Int) (user : User)
    (product : Product) (e : CartItem)
    (hu : findUser db.users userId = some user)
    (hp : findProduct db.products productId = some product)
    (hf : findItem user.cart productId = some e) :
    (quantity ≤ 0 → setQuantity db userId productId quantity =
      (.ok, ⟨db.products, saveUser db.users ⟨user._id, removeItem user.cart productId⟩,
        db.orders⟩)) ∧
    (0 < quantity → quantity > product.stock →
      setQuantity db userId productId quantity = (.insufficientStock, db)) ∧
    (0 < quantity → quantity ≤ product.stock → setQuantity db userId productId quantity =
      (.ok, ⟨db.products,
        saveUser db.users ⟨user._id, setItemQuantity user.cart productId quantity⟩,
        db.orders⟩)) := by
  refine ⟨fun h => ?_, fun h0 h => ?_, fun h0 h => ?_⟩
  · simp only [setQuantity, hu, hp, hf, h, if_true]
  · have h0' : ¬ quantity ≤ 0 := not_le.mpr h0
    simp only [setQuantity, hu, hp, hf, h0', if_false, h, if_true]
  · have h0' : ¬ quantity ≤ 0 := not_le.mpr h0
    have h' : ¬ quantity > product.stock := not_lt.mpr h
    simp only [setQuantity, hu, hp, hf, h0', if_false, h']

theorem remove_eq (db : Db) (userId productId : Nat) (user : User)
    (hu : findUser db.users userId = some user) :
    remove db userId productId =
      (.ok, ⟨db.products, saveUser db.users ⟨user._id, removeItem user.cart productId⟩,
        db.orders⟩) := by
  simp only [remove, hu]

theorem findItem_append_cons {pre post : List CartItem} {x : CartItem} {p : Nat}
    (hpre : ∀ l ∈ pre, l.productId ≠ p) (hx : x.productId = p) :
    findItem (pre ++ x :: post) p = some x := by
  induction pre with
  | nil => simp [findItem, hx]
  | cons a rest ih =>
    have ha : ¬ a.productId = p := hpre a (List.mem_cons_self _ _)
    have := ih (fun l hl => hpre l (List.mem_cons_of_mem _ hl))
    simpa [findItem, List.find?_cons, ha] using this

theorem removeItem_append_cons (pre post : List CartItem) (x : CartItem) (p : Nat)
    (hx : x.productId = p) :
    removeItem (pre ++ x :: post) p = removeItem pre p ++ removeItem post p := by
  rw [removeItem_append, removeItem_cons_same x post p hx]

theorem countP_append_cons (pre post : List CartItem) (x : CartItem) (p : Nat)
    (hx : x.productId = p) :
    (pre ++ x :: post).countP (fun it => it.productId == p) =
      pre.countP (fun it => it.productId == p) + 1 +
        post.countP (fun it => it.productId == p) := by
  simp [List.countP_append, List.countP_cons, hx]
  omega

/-- What a successful `addOne` leaves in the cart, given the cart before. -/
theorem addOne_cart (cart : List CartItem) (p : Nat) :
    ∃ cart',
      cart' = (match findItem cart p with
        | some _ => setItemQuantity cart p (lineQuantity cart p + 1)
        | none => cart ++ [⟨p, 1⟩]) ∧
      findItem cart' p = some ⟨p, lineQuantity cart p + 1⟩ ∧
      removeItem cart' p = removeItem cart p ∧
      (cart.countP (fun it => it.productId == p) ≤ 1 →
        cart'.countP (fun it => it.productId == p) = 1) := by
  refine ⟨_, rfl, ?_⟩
  cases hf : findItem cart p with
  | none =>
    have hno := (findItem_eq_none_iff cart p).mp hf
    simp only [lineQuantity, hf, zero_add]
    refine ⟨findItem_append_cons hno rfl, ?_, fun _ => ?_⟩
    · rw [removeItem_append, removeItem_cons_same _ _ _ rfl]
      simp [removeItem]
    · rw [countP_append_cons cart [] ⟨p, 1⟩ p rfl, countP_eq_zero_of_findItem_none hf]
      simp
  | some e =>
    obtain ⟨pre, post, hc, hpre, hset⟩ := findItem_split hf
    have he : e.productId = p := (findItem_some hf).1
    simp only [lineQuantity, hf, hset]
    refine ⟨findItem_append_cons hpre rfl, ?_, fun hcount => ?_⟩
    · rw [hc, removeItem_append_cons pre post ⟨p, e.quantity + 1⟩ p rfl,
        removeItem_append_cons pre post e p he]
    · rw [countP_append_cons pre post ⟨p, e.quantity + 1⟩ p rfl]
      rw [hc, countP_append_cons pre post e p he] at hcount
      omega

theorem addOne_from_count (db : Db) (userId productId : Nat) (user : User) (product : Product)
    (s k : Nat)
    (hu : findUser db.users userId = some user)
    (hp : findProduct db.products productId = some product)
    (hs : product.stock = (s : Int))
    (hk : findItem user.cart productId =
      if k = 0 then none else some ⟨productId, (k : Int)⟩) :
    (k < s → ∃ user', addOne db userId productId =
        (.ok, ⟨db.products, saveUser db.users user', db.orders⟩) ∧
      findUser (saveUser db.users user') userId = some user' ∧
      findItem user'.cart productId = some ⟨productId, ((k + 1 : Nat) : Int)⟩) ∧
    (s ≤ k → addOne db userId productId = (.insufficientStock, db)) := by
  by_cases hk0 : k = 0
  · subst hk0
    simp only [if_true] at hk
    obtain ⟨hfail, hok⟩ := addOne_eq_of_no_line db userId productId user product hu hp hk
    refine ⟨fun hlt => ?_, fun hle => hfail (by rw [hs]; omega)⟩
    refine ⟨⟨user._id, user.cart ++ [⟨productId, 1⟩]⟩, hok (by rw [hs]; omega),
      findUser_saveUser_self _ hu, ?_⟩
    exact findItem_append_cons ((findItem_eq_none_iff _ _).mp hk) rfl
  · simp only [hk0, if_false] at hk
    obtain ⟨hfail, hok⟩ := addOne_eq_of_line db userId productId user product _ hu hp hk
    obtain ⟨pre, post, _, hpre, hset⟩ := findItem_split hk
    refine ⟨fun hlt => ?_, fun hle => hfail (by rw [hs]; simp only; omega)⟩
    refine ⟨⟨user._id, setItemQuantity user.cart productId ((k : Int) + 1)⟩,
      hok (by rw [hs]; simp only; omega), findUser_saveUser_self _ hu, ?_⟩
    simp only [hset]
    rw [findItem_append_cons hpre rfl]
    simp only [Nat.cast_add, Nat.cast_one]

theorem addOneRepeat_from_count (userId productId : Nat) (product : Product) (s : Nat)
    (hs : product.stock = (s : Int)) :
    ∀ (n : Nat) (db : Db) (user : User) (k : Nat), k ≤ s →
      findUser db.users userId = some user →
      findProduct db.products productId = some product →
      findItem user.cart productId = (if k = 0 then none else some ⟨productId, (k : Int)⟩) →
      (addOneRepeat userId productId n db).1 =
          List.replicate (min n (s - k)) CartResponse.ok ++
            List.replicate (n - min n (s - k)) CartResponse.insufficientStock ∧
      ∃ user', findUser (addOneRepeat userId productId n db).2.users userId = some user' ∧
        findItem user'.cart productId =
          (if k + min n (s - k) = 0 then none
           else some ⟨productId, ((k + min n (s - k) : Nat) : Int)⟩) := by
  intro n
  induction n with
  | zero =>
    intro db user k _ hu _ hk
    refine ⟨by simp [addOneRepeat], user, by simpa [addOneRepeat] using hu, ?_⟩
    simpa using hk
  | succ n ih =>
    intro db user k hks hu hp hk
    obtain ⟨hok, hfail⟩ := addOne_from_count db userId productId user product s k hu hp hs hk
    simp only [addOneRepeat]
    by_cases hlt : k < s
    · obtain ⟨user', he, hu', hk'⟩ := hok hlt
      rw [he]
      have hk'' : findItem user'.cart productId =
          (if k + 1 = 0 then none else some ⟨productId, ((k + 1 : Nat) : Int)⟩) := by
        simpa using hk'
      obtain ⟨hr, u'', hu'', hf''⟩ :=
        ih ⟨db.products, saveUser db.users user', db.orders⟩ user' (k + 1) hlt hu' hp hk''
      have hmin : min (n + 1) (s - k) = min n (s - (k + 1)) + 1 := by omega
      have hsub : n + 1 - min (n + 1) (s - k) = n - min n (s - (k + 1)) := by omega
      have hsum : k + min (n + 1) (s - k) = k + 1 + min n (s - (k + 1)) := by omega
      refine ⟨?_, u'', hu'', ?_⟩
      · rw [hsub, hmin, hr]; rfl
      · rw [hsum]; exact hf''
    · have hle : s ≤ k := not_lt.mp hlt
      rw [hfail hle]
      obtain ⟨hr, u'', hu'', hf''⟩ := ih db user k hks hu hp hk
      have h0 : s - k = 0 := by omega
      simp only [h0, Nat.min_zero, Nat.sub_zero, List.replicate_zero, List.nil_append,
        Nat.add_zero] at hr hf'' ⊢
      exact ⟨by rw [hr, List.replicate_succ], u'', hu'', hf''⟩

theorem setQuantity_eq_of_no_product (db : Db) (userId productId : Nat) (quantity : Int)
    (user : User) (hu : findUser db.users userId = some user)
    (hp : findProduct db.products productId = none) :
    setQuantity db userId productId quantity = (.productNotFound, db) := by
  simp only [setQuantity, hu, hp]

theorem setQuantity_eq_of_no_line (db : Db) (userId productId : Nat) (quantity : Int)
    (user : User) (product : Product) (hu : findUser db.users userId = some user)
    (hp : findProduct db.products productId = some product)
    (hf : findItem user.cart productId = none) :
    setQuantity db userId productId quantity = (.itemNotInCart, db) := by
  simp only [setQuantity, hu, hp, hf]

theorem setQuantity_eq_of_no_user (db : Db) (userId productId : Nat) (quantity : Int)
    (hu : findUser db.users userId = none) :
    setQuantity db userId productId quantity = (.userNotFound, db) := by
  simp only [setQuantity, hu]

theorem remove_eq_of_no_user (db : Db) (userId productId : Nat)
    (hu : findUser db.users userId = none) :
    remove db userId productId = (.userNotFound, db) := by
  simp only [remove, hu]

theorem setItemQuantity_map_productId (cart : List CartItem) (p : Nat) (q : Int) :
    (setItemQuantity cart p q).map (fun it => it.productId) =
      cart.map (fun it => it.productId) := by
  induction cart with
  | nil => rfl
  | cons a rest ih =>
    by_cases ha : a.productId = p
    · simp [setItemQuantity, ha]
    · simp [setItemQuantity, ha, ih]

theorem mem_setItemQuantity {cart : List CartItem} {p : Nat} {q : Int} {l : CartItem}
    (h : l ∈ setItemQuantity cart p q) : l ∈ cart ∨ l.quantity = q := by
  induction cart with
  | nil => simp [setItemQuantity] at h
  | cons a rest ih =>
    simp only [setItemQuantity] at h
    split at h
    · rcases List.mem_cons.mp h with rfl | h
      · exact Or.inr rfl
      · exact Or.inl (List.mem_cons_of_mem _ h)
    · rcases List.mem_cons.mp h with rfl | h
      · exact Or.inl (List.mem_cons_self _ _)
      · rcases ih h with h | h
        · exact Or.inl (List.mem_cons_of_mem _ h)
        · exact Or.inr h

theorem CartWf.nil : CartWf [] := by
  simp [CartWf]

theorem CartWf.setItemQuantity {cart : List CartItem} (h : CartWf cart) (p : Nat) (q : Int)
    (hq : 1 ≤ q) : CartWf (setItemQuantity cart p q) := by
  refine ⟨by rw [setItemQuantity_map_productId]; exact h.1, fun l hl => ?_⟩
  rcases mem_setItemQuantity hl with hl | hl
  · exact h.2 l hl
  · rw [hl]; exact hq

theorem CartWf.removeItem {cart : List CartItem} (h : CartWf cart) (p : Nat) :
    CartWf (removeItem cart p) := by
  refine ⟨?_, fun l hl => h.2 l (mem_removeItem.mp hl).1⟩
  exact h.1.sublist ((List.filter_sublist _).map _)

theorem CartWf.append_new {cart : List CartItem} (h : CartWf cart) (p : Nat)
    (hf : findItem cart p = none) : CartWf (cart ++ [⟨p, 1⟩]) := by
  have hno := (findItem_eq_none_iff cart p).mp hf
  refine ⟨?_, fun l hl => ?_⟩
  · rw [List.map_append, List.nodup_append]
    refine ⟨h.1, by simp, ?_⟩
    intro a ha hb
    simp only [List.map_cons, List.map_nil, List.mem_singleton] at hb
    obtain ⟨l, hl, rfl⟩ := List.mem_map.mp ha
    exact hno l hl hb
  · rcases List.mem_append.mp hl with hl | hl
    · exact h.2 l hl
    · simp only [List.mem_singleton] at hl
      rw [hl]

/-- Every user document holds a well-formed cart. -/
theorem carts_saveUser {us : List User} {u : User} (hus : ∀ v ∈ us, CartWf v.cart)
    (hu : CartWf u.cart) : ∀ v ∈ saveUser us u, CartWf v.cart := by
  intro v hv
  rcases mem_saveUser hv with hv | rfl
  · exact hus v hv
  · exact hu

theorem addOne_carts (db : Db) (userId productId : Nat)
    (h : ∀ v ∈ db.users, CartWf v.cart) :
    ∀ v ∈ (addOne db userId productId).2.users, CartWf v.cart := by
  cases hu : findUser db.users userId with
  | none => simpa only [addOne, hu] using h
  | some user =>
    have hwf : CartWf user.cart := h user (findUser_mem hu)
    cases hp : findProduct db.products productId with
    | none => simpa only [addOne, hu, hp] using h
    | some product =>
      cases hf : findItem user.cart productId with
      | none =>
        obtain ⟨hfail, hok⟩ := addOne_eq_of_no_line db userId productId user product hu hp hf
        by_cases hs : 1 > product.stock
        · rw [hfail hs]; exact h
        · rw [hok (not_lt.mp hs)]
          exact carts_saveUser h (hwf.append_new productId hf)
      | some e =>
        obtain ⟨hfail, hok⟩ := addOne_eq_of_line db userId productId user product e hu hp hf
        by_cases hs : e.quantity + 1 > product.stock
        · rw [hfail hs]; exact h
        · rw [hok (not_lt.mp hs)]
          have he : 1 ≤ e.quantity := hwf.2 e (findItem_some hf).2
          exact carts_saveUser h (hwf.setItemQuantity productId _ (by omega))

theorem setQuantity_carts (db : Db) (userId productId : Nat) (quantity : Int)
    (h : ∀ v ∈ db.users, CartWf v.cart) :
    ∀ v ∈ (setQuantity db userId productId quantity).2.users, CartWf v.cart := by
  cases hu : findUser db.users userId with
  | none => rw [setQuantity_eq_of_no_user db userId productId quantity hu]; exact h
  | some user =>
    have hwf : CartWf user.cart := h user (findUser_mem hu)
    cases hp : findProduct db.products productId with
    | none => rw [setQuantity_eq_of_no_product db userId productId quantity user hu hp]; exact h
    | some product =>
      cases hf : findItem user.cart productId with
      | none =>
        rw [setQuantity_eq_of_no_line db userId productId quantity user product hu hp hf]
        exact h
      | some e =>
        obtain ⟨h1, h2, h3⟩ :=
          setQuantity_eq db userId productId quantity user product e hu hp hf
        by_cases hq : quantity ≤ 0
        · rw [h1 hq]
          exact carts_saveUser h (hwf.removeItem productId)
        · have hq' : 0 < quantity := not_le.mp hq
          by_cases hs : quantity > product.stock
          · rw [h2 hq' hs]; exact h
          · rw [h3 hq' (not_lt.mp hs)]
            exact carts_saveUser h (hwf.setItemQuantity productId quantity (by omega))

theorem remove_carts (db : Db) (userId productId : Nat)
    (h : ∀ v ∈ db.users, CartWf v.cart) :
    ∀ v ∈ (remove db userId productId).2.users, CartWf v.cart := by
  cases hu : findUser db.users userId with
  | none => rw [remove_eq_of_no_user db userId productId hu]; exact h
  | some user =>
    rw [remove_eq db userId productId user hu]
    exact carts_saveUser h ((h user (findUser_mem hu)).removeItem productId)

theorem checkout_carts (db : Db) (userId now newId : Nat)
    (h : ∀ v ∈ db.users, CartWf v.cart) :
    ∀ v ∈ (checkout db userId now newId).2.users, CartWf v.cart := by
  rcases checkout_cases db userId now newId with ⟨_, he⟩ | ⟨_, _, _, he⟩ | ⟨_, _, _, _, _, he⟩ |
    ⟨_, _, _, _, _, _, _, _, he⟩ | ⟨_, _, _, _, _, _, _, _, he⟩
  · rw [he]; exact h
  · rw [he]; exact h
  · rw [he]; exact h
  · rw [he]; exact h
  · rw [he]; exact carts_saveUser h CartWf.nil

theorem step_carts (db : Db) (r : Request) (h : ∀ v ∈ db.users, CartWf v.cart) :
    ∀ v ∈ (step db r).users, CartWf v.cart := by
  cases r with
  | addOne u p => exact addOne_carts db u p h
  | setQuantity u p q => exact setQuantity_carts db u p q h
  | remove u p => exact remove_carts db u p h
  | checkout u now newId => exact checkout_carts db u now newId h

theorem run_carts (reqs : List Request) :
    ∀ db : Db, (∀ v ∈ db.users, CartWf v.cart) → ∀ v ∈ (run db reqs).users, CartWf v.cart := by
  induction reqs with
  | nil => intro db h; simpa [run] using h
  | cons r rs ih =>
    intro db h
    have := ih (step db r) (step_carts db r h)
    simpa [run] using this

theorem map_id_saveUser (us : List User) (u : User) :
    (saveUser us u).map (fun v => v._id) = us.map (fun v => v._id) := by
  induction us with
  | nil => rfl
  | cons v vs ih =>
    by_cases hv : v._id = u._id
    · simp [saveUser, hv]
    · simp [saveUser, hv, ih]

/-- A cart route either leaves the database alone or saves the caller's user
document with another cart. -/
theorem cart_route_effect (db : Db) (userId productId : Nat) (quantity : Int) :
    ∀ r ∈ [addOne db userId productId, setQuantity db userId productId quantity,
        remove db userId productId],
      r.2 = db ∨ ∃ cart, r.2 = ⟨db.products, saveUser db.users ⟨userId, cart⟩, db.orders⟩ := by
  intro r hr
  simp only [List.mem_cons, List.mem_singleton, List.not_mem_nil, or_false] at hr
  cases hu : findUser db.users userId with
  | none =>
    rcases hr with rfl | rfl | rfl
    · left; simp only [addOne, hu]
    · left; rw [setQuantity_eq_of_no_user db userId productId quantity hu]
    · left; rw [remove_eq_of_no_user db userId productId hu]
  | some user =>
    have hid : user._id = userId := findUser_id hu
    rcases hr with rfl | rfl | rfl
    · cases hp : findProduct db.products productId with
      | none => left; simp only [addOne, hu, hp]
      | some product =>
        cases hf : findItem user.cart productId with
        | none =>
          obtain ⟨hfail, hok⟩ := addOne_eq_of_no_line db userId productId user product hu hp hf
          by_cases hs : 1 > product.stock
          · left; rw [hfail hs]
          · right; rw [hok (not_lt.mp hs), hid]; exact ⟨_, rfl⟩
        | some e =>
          obtain ⟨hfail, hok⟩ := addOne_eq_of_line db userId productId user product e hu hp hf
          by_cases hs : e.quantity + 1 > product.stock
          · left; rw [hfail hs]
          · right; rw [hok (not_lt.mp hs), hid]; exact ⟨_, rfl⟩
    · cases hp : findProduct db.products productId with
      | none => left; rw [setQuantity_eq_of_no_product db userId productId quantity user hu hp]
      | some product =>
        cases hf : findItem user.cart productId with
        | none =>
          left; rw [setQuantity_eq_of_no_line db userId productId quantity user product hu hp hf]
        | some e =>
          obtain ⟨h1, h2, h3⟩ :=
            setQuantity_eq db userId productId quantity user product e hu hp hf
          by_cases hq : quantity ≤ 0
          · right; rw [h1 hq, hid]; exact ⟨_, rfl⟩
          · have hq' : 0 < quantity := not_le.mp hq
            by_cases hs : quantity > product.stock
            · left; rw [h2 hq' hs]
            · right; rw [h3 hq' (not_lt.mp hs), hid]; exact ⟨_, rfl⟩
    · right; rw [remove_eq db userId productId user hu, hid]; exact ⟨_, rfl⟩

theorem getCart_items_forall₂ (ps : List Product) (cart : List CartItem) :
    List.Forall₂
      (fun (l : CartItem) (v : CartViewItem) =>
        v.productId = l.productId ∧ v.quantity = l.quantity ∧
          ∃ p, findProduct ps l.productId = some p ∧
            v.price = p.price ∧ v.name = p.name ∧ v.category = p.category)
      (cart.filter (fun l => (findProduct ps l.productId).isSome))
      ((populate ps cart).map (fun item =>
        match item.productId with
        | none => none
        | some product =>
          some { productId := product._id, name := product.name,
                 category := product.category, price := product.price,
                 quantity := item.quantity : CartViewItem })).reduceOption := by
  induction cart with
  | nil => simp [populate]
  | cons l rest ih =>
    rw [populate_cons, List.map_cons]
    cases hp : findProduct ps l.productId with
    | none =>
      simp only [List.filter_cons, hp, Option.isSome_none, Bool.false_eq_true, if_false,
        List.reduceOption_cons_of_none]
      exact ih
    | some p =>
      simp only [List.filter_cons, hp, Option.isSome_some, if_true,
        List.reduceOption_cons_of_some]
      exact List.Forall₂.cons ⟨findProduct_id hp, rfl, p, hp, rfl, rfl, rfl⟩ ih

/-! ## Lemmas on the order listing -/

theorem insertionSort_append_newest (r : Order → Order → Prop) [DecidableRel r]
    (l : List Order) (o : Order) (h : ∀ x ∈ l, ¬ r x o) :
    (l ++ [o]).insertionSort r = o :: l.insertionSort r := by
  induction l with
  | nil => simp [List.insertionSort]
  | cons a rest ih =>
    have ha : ¬ r a o := h a (List.mem_cons_self _ _)
    have ih := ih (fun x hx => h x (List.mem_cons_of_mem _ hx))
    show List.orderedInsert r a ((rest ++ [o]).insertionSort r) =
      o :: List.orderedInsert r a (rest.insertionSort r)
    rw [ih, List.orderedInsert]
    simp only [ha, if_false]

theorem findOrders_append_newest (os : List Order) (o : Order) (userId : Nat)
    (ho : o.user = userId)
    (h : ∀ x ∈ os, x.user = userId → x.createdAt < o.createdAt) :
    findOrders (os ++ [o]) userId = o :: findOrders os userId := by
  unfold findOrders
  have hf : (os ++ [o]).filter (fun x => x.user == userId) =
      os.filter (fun x => x.user == userId) ++ [o] := by
    simp [List.filter_append, ho]
  rw [hf]
  apply insertionSort_append_newest
  intro x hx
  have hx' := List.mem_filter.mp hx
  have := h x hx'.1 (by simpa using hx'.2)
  omega

theorem addOne_insufficient (db : Db) (userId productId : Nat)
    (h : (addOne db userId productId).1 = .insufficientStock) :
    ∃ user product, findUser db.users userId = some user ∧
      findProduct db.products productId = some product ∧
      lineQuantity user.cart productId + 1 > product.stock := by
  cases hu : findUser db.users userId with
  | none => simp [addOne, hu] at h
  | some user =>
    cases hp : findProduct db.products productId with
    | none => simp [addOne, hu, hp] at h
    | some product =>
      refine ⟨user, product, rfl, rfl, ?_⟩
      by_contra hle
      cases hf : findItem user.cart productId with
      | none =>
        have hq : lineQuantity user.cart productId = 0 := by simp [lineQuantity, hf]
        rw [hq, zero_add] at hle
        rw [(addOne_eq_of_no_line db userId productId user product hu hp hf).2
          (not_lt.mp hle)] at h
        cases h
      | some e =>
        have hq : lineQuantity user.cart productId = e.quantity := by simp [lineQuantity, hf]
        rw [hq] at hle
        rw [(addOne_eq_of_line db userId productId user product e hu hp hf).2
          (not_lt.mp hle)] at h
        cases h

theorem setQuantity_insufficient (db : Db) (userId productId : Nat) (quantity : Int)
    (h : (setQuantity db userId productId quantity).1 = .insufficientStock) :
    ∃ product, findProduct db.products productId = some product ∧
      quantity > product.stock := by
  cases hu : findUser db.users userId with
  | none => rw [setQuantity_eq_of_no_user db userId productId quantity hu] at h; cases h
  | some user =>
    cases hp : findProduct db.products productId with
    | none =>
      rw [setQuantity_eq_of_no_product db userId productId quantity user hu hp] at h
      cases h
    | some product =>
      refine ⟨product, rfl, ?_⟩
      cases hf : findItem user.cart productId with
      | none =>
        rw [setQuantity_eq_of_no_line db userId productId quantity user product hu hp hf] at h
        cases h
      | some e =>
        obtain ⟨h1, _, h3⟩ :=
          setQuantity_eq db userId productId quantity user product e hu hp hf
        by_contra hle
        by_cases hq : quantity ≤ 0
        · rw [h1 hq] at h; cases h
        · rw [h3 (not_le.mp hq) (not_lt.mp hle)] at h; cases h

/-! ## Lemmas on the phases of checkout -/

theorem checkoutValidate_ok {db : Db} {userId : Nat} {pending : PendingCheckout}
    (h : checkoutValidate db userId = .ok pending) :
    findUser db.users userId = some pending.user ∧
    pending.user.cart ≠ [] ∧
    pending.cart = populate db.products pending.user.cart ∧
    validateLoop (populate db.products pending.user.cart) 0 [] =
      .ok (pending.subtotal, pending.orderItems) ∧
    pending.tax = round2 (pending.subtotal * taxRate) ∧
    pending.total = round2 (pending.subtotal + pending.tax) := by
  unfold checkoutValidate at h
  cases hu : findUser db.users userId with
  | none => simp [hu] at h
  | some user =>
    simp only [hu] at h
    by_cases hc : (populate db.products user.cart).length = 0
    · simp [hc] at h
    · simp only [hc, if_false] at h
      cases hv : validateLoop (populate db.products user.cart) 0 [] with
      | error e => simp [hv] at h
      | ok r =>
        obtain ⟨s, ois⟩ := r
        simp only [hv, Except.ok.injEq] at h
        subst h
        refine ⟨rfl, ?_, rfl, hv, rfl, rfl⟩
        intro hnil
        have hnil' : user.cart = [] := hnil
        exact hc (by simp [populate, hnil'])

theorem checkoutValidate_error {db : Db} {userId : Nat} {e : CheckoutResponse}
    (h : checkoutValidate db userId = .error e) (now newId : Nat) :
    checkout db userId now newId = (e, db) ∧ e ≠ .serverError ∧ ∀ o, e ≠ .ok o := by
  unfold checkoutValidate at h
  cases hu : findUser db.users userId with
  | none =>
    simp only [hu, Except.error.injEq] at h
    subst h
    exact ⟨by simp [checkout, hu], by simp, by simp⟩
  | some user =>
    simp only [hu] at h
    by_cases hc : (populate db.products user.cart).length = 0
    · simp only [hc, if_true, Except.error.injEq] at h
      subst h
      exact ⟨by simp only [checkout, hu, hc, if_true], by simp, by simp⟩
    · simp only [hc, if_false] at h
      cases hv : validateLoop (populate db.products user.cart) 0 [] with
      | ok r => simp [hv] at h
      | error e' =>
        simp only [hv, Except.error.injEq] at h
        subst h
        refine ⟨by simp only [checkout, hu, hc, if_false, hv], ?_⟩
        obtain ⟨_, _, _, _, _, hcase | ⟨_, _, _, hcase⟩⟩ :=
          validateLoop_populate_error _ _ _ _ _ hv
        · rw [hcase.2]; exact ⟨by simp, by simp⟩
        · rw [hcase]; exact ⟨by simp, by simp⟩

theorem checkout_eq_commit {db : Db} {userId : Nat} {pending : PendingCheckout}
    (h : checkoutValidate db userId = .ok pending) (now newId : Nat) :
    checkout db userId now newId = checkoutCommit db pending now newId := by
  obtain ⟨hu, hc, hcart, hv, htax, htot⟩ := checkoutValidate_ok h
  have hlen : ¬ (populate db.products pending.user.cart).length = 0 := by
    simpa [populate] using hc
  simp only [checkout, hu, hlen, if_false, hv, checkoutCommit, hcart]
  rw [htot, htax]

theorem decrementLoopFaulty_none (items : List PopulatedItem) :
    ∀ ps : List Product, decrementLoopFaulty items ps none =
      match decrementLoop items ps with
      | .ok ps' => .ok (ps', none)
      | .error ps' => .error ps' := by
  induction items with
  | nil => intro ps; simp [decrementLoopFaulty, decrementLoop]
  | cons it rest ih =>
    intro ps
    unfold decrementLoopFaulty decrementLoop
    cases it.productId with
    | none => rfl
    | some ref =>
      simp only
      cases findProduct ps ref._id with
      | none => exact ih ps
      | some product => simp only [spendWrite]; exact ih _

theorem decrementLoopFaulty_ok (items : List PopulatedItem) :
    ∀ (ps : List Product) (budget : Option Nat) (ps' : List Product) (left : Option Nat),
      decrementLoopFaulty items ps budget = .ok (ps', left) →
        decrementLoop items ps = .ok ps' := by
  induction items with
  | nil =>
    intro ps budget ps' left h
    simp only [decrementLoopFaulty, Except.ok.injEq, Prod.mk.injEq] at h
    simp [decrementLoop, h.1]
  | cons it rest ih =>
    intro ps budget ps' left h
    unfold decrementLoopFaulty at h
    unfold decrementLoop
    cases hr : it.productId with
    | none => simp [hr] at h
    | some ref =>
      simp only [hr] at h ⊢
      cases hf : findProduct ps ref._id with
      | none =>
        simp only [hf] at h ⊢
        exact ih _ _ _ _ h
      | some product =>
        simp only [hf] at h ⊢
        cases hs : spendWrite budget with
        | none => simp [hs] at h
        | some b =>
          simp only [hs] at h
          exact ih _ _ _ _ h

theorem decrementLoopFaulty_error (items : List PopulatedItem) :
    ∀ (ps : List Product) (budget : Option Nat) (ps' : List Product),
      decrementLoopFaulty items ps budget = .error ps' →
        ∃ n, decrementLoop (items.take n) ps = .ok ps' := by
  induction items with
  | nil => intro ps budget ps' h; simp [decrementLoopFaulty] at h
  | cons it rest ih =>
    intro ps budget ps' h
    unfold decrementLoopFaulty at h
    cases hr : it.productId with
    | none =>
      simp only [hr, Except.error.injEq] at h
      exact ⟨0, by simp [decrementLoop, h]⟩
    | some ref =>
      simp only [hr] at h
      cases hf : findProduct ps ref._id with
      | none =>
        simp only [hf] at h
        obtain ⟨n, hn⟩ := ih _ _ _ h
        refine ⟨n + 1, ?_⟩
        rw [List.take_succ_cons, decrementLoop]
        simp only [hr, hf]
        exact hn
      | some product =>
        simp only [hf] at h
        cases hs : spendWrite budget with
        | none =>
          simp only [hs, Except.error.injEq] at h
          exact ⟨0, by simp [decrementLoop, h]⟩
        | some b =>
          simp only [hs] at h
          obtain ⟨n, hn⟩ := ih _ _ _ h
          refine ⟨n + 1, ?_⟩
          rw [List.take_succ_cons, decrementLoop]
          simp only [hr, hf]
          exact hn

theorem checkoutFaulty_none (db : Db) (userId now newId : Nat) :
    checkoutFaulty db userId now newId none = checkout db userId now newId := by
  unfold checkoutFaulty
  cases hv : checkoutValidate db userId with
  | error e => exact ((checkoutValidate_error hv now newId).1).symm
  | ok pending =>
    rw [checkout_eq_commit hv now newId]
    simp only [decrementLoopFaulty_none, checkoutCommit]
    cases decrementLoop pending.cart db.products with
    | error ps => rfl
    | ok ps => rfl

/-! ## Checkout of a cart with a single line of quantity 1 -/

theorem checkoutValidate_single (db : Db) (userId productId : Nat) (product : Product)
    (hu : findUser db.users userId = some ⟨userId, [⟨productId, 1⟩]⟩)
    (hp : findProduct db.products productId = some product) :
    (1 ≤ product.stock →
      ∃ pending, checkoutValidate db userId = .ok pending ∧
        pending.user = ⟨userId, [⟨productId, 1⟩]⟩ ∧
        pending.cart = [⟨some product, 1⟩]) ∧
    (product.stock < 1 →
      checkoutValidate db userId = .error (.insufficientStock product.name)) := by
  constructor
  · intro h
    have h' : ¬ product.stock < 1 := not_lt.mpr h
    exact ⟨⟨⟨userId, [⟨productId, 1⟩]⟩, [⟨some product, 1⟩], [⟨product._id, 1, product.price⟩],
      product.price, round2 (product.price * taxRate),
      round2 (product.price + round2 (product.price * taxRate))⟩,
      by simp [checkoutValidate, hu, populate, hp, validateLoop, h'], rfl, rfl⟩
  · intro h
    simp [checkoutValidate, hu, populate, hp, validateLoop, h]

theorem checkoutCommit_single (db : Db) (pending : PendingCheckout) (now newId : Nat)
    (ref current : Product)
    (hcart : pending.cart = [⟨some ref, 1⟩])
    (hcur : findProduct db.products ref._id = some current) :
    checkoutCommit db pending now newId =
      (.ok ⟨newId, pending.subtotal, pending.tax, pending.total⟩,
        ⟨saveProduct db.products
            { current with stock := if current.stock - 1 < 0 then 0 else current.stock - 1 },
          saveUser db.users ⟨pending.user._id, []⟩,
          db.orders ++ [⟨newId, pending.user._id, pending.orderItems, pending.subtotal,
            pending.tax, pending.total, now⟩]⟩) := by
  simp [checkoutCommit, hcart, decrementLoop, hcur]

theorem findProduct_saveProduct_same {ps : List Product} {id : Nat} {p q : Product}
    (h : findProduct ps id = some p) (hq : q._id = id) :
    findProduct (saveProduct ps q) id = some q := by
  rw [findProduct_saveProduct]
  simp [hq, h]

theorem checkoutCommit_single_effect (db : Db) (pending : PendingCheckout) (now newId : Nat)
    (ref current : Product)
    (hcart : pending.cart = [⟨some ref, 1⟩])
    (hcur : findProduct db.products ref._id = some current) :
    (∃ o, (checkoutCommit db pending now newId).1 = .ok o) ∧
    findProduct (checkoutCommit db pending now newId).2.products ref._id =
      some { current with stock := if current.stock - 1 < 0 then 0 else current.stock - 1 } ∧
    (∀ other, other ≠ pending.user._id →
      findUser (checkoutCommit db pending now newId).2.users other =
        findUser db.users other) ∧
    ∃ order : Order,
      (checkoutCommit db pending now newId).2.orders = db.orders ++ [order] ∧
      order.user = pending.user._id := by
  rw [checkoutCommit_single db pending now newId ref current hcart hcur]
  refine ⟨⟨_, rfl⟩, ?_, fun other hne => ?_, ⟨_, rfl, rfl⟩⟩
  · have hq : current._id = ref._id := findProduct_id hcur
    exact findProduct_saveProduct_same hcur hq
  · simp only [findUser_saveUser, hne, if_false]

/-! ## Lemmas on the cart page -/

theorem validateLoop_populate_foldl (ps : List Product) (cart : List CartItem) :
    ∀ (sub : ℚ) (acc : List OrderItem) (s : ℚ) (ois : List OrderItem),
      validateLoop (populate ps cart) sub acc = .ok (s, ois) →
        (((populate ps cart).map (fun item =>
          match item.productId with
          | none => none
          | some product =>
            some { productId := product._id, name := product.name,
                   category := product.category, price := product.price,
                   quantity := item.quantity : CartViewItem })).reduceOption).foldl
          (fun sum item => sum + item.price * (item.quantity : ℚ)) sub = s := by
  induction cart with
  | nil =>
    intro sub acc s ois h
    simp only [populate, List.map_nil, validateLoop, Except.ok.injEq, Prod.mk.injEq] at h
    simp [populate, h.1]
  | cons it rest ih =>
    intro sub acc s ois h
    rw [populate_cons] at h ⊢
    rw [validateLoop] at h
    cases hf : findProduct ps it.productId with
    | none => simp [hf] at h
    | some p =>
      simp only [hf] at h
      by_cases hq : it.quantity > p.stock
      · simp [hq] at h
      · simp only [hq, if_false] at h
        rw [List.map_cons, List.reduceOption_cons_of_some, List.foldl_cons]
        exact ih _ _ _ _ h

theorem getCart_foldl (db : Db) (userId : Nat) (user : User) (sub : ℚ)
    (acc : List OrderItem) (s : ℚ) (ois : List OrderItem)
    (hu : findUser db.users userId = some user)
    (hv : validateLoop (populate db.products user.cart) sub acc = .ok (s, ois)) :
    ∃ items, getCart db userId = (.ok items, db) ∧
      items.foldl (fun sum item => sum + item.price * (item.quantity : ℚ)) sub = s := by
  refine ⟨_, ?_, validateLoop_populate_foldl db.products user.cart sub acc s ois hv⟩
  simp only [getCart, hu]
  try rfl

/-! ## Lemmas on amounts on doubles -/

theorem Num64.nonNeg_ofRat (x : ℚ) (hx : 0 ≤ x) : (Num64.ofRat x).NonNeg := by
  unfold Num64.ofRat
  have hlt : ¬ x < 0 := not_lt.mpr hx
  simp only [hlt, decide_False, if_false]
  split_ifs
  · exact le_refl (0 : ℚ)
  · rfl
  · exact (Nat.cast_nonneg _ : (0 : ℚ) ≤ _)
  · rfl
  · exact (div_nonneg (Nat.cast_nonneg _) (Nat.cast_nonneg _) : (0 : ℚ) ≤ _)

theorem Num64.nonNeg_mul (a : Num64) (q : ℚ) (ha : a.NonNeg) (hq : 0 < q) :
    (Num64.mul a (.finite q)).NonNeg := by
  cases a with
  | finite x =>
    have hx : (0 : ℚ) ≤ x := ha
    exact Num64.nonNeg_ofRat _ (mul_nonneg hx hq.le)
  | infinity s =>
    have hs : s = false := ha
    subst hs
    simp [Num64.mul, hq.ne', not_lt.mpr hq.le, Num64.NonNeg]
  | nan => exact ha.elim

theorem Num64.nonNeg_add (a b : Num64) (ha : a.NonNeg) (hb : b.NonNeg) :
    (Num64.add a b).NonNeg := by
  cases a with
  | finite x =>
    cases b with
    | finite y =>
      have hx : (0 : ℚ) ≤ x := ha
      have hy : (0 : ℚ) ≤ y := hb
      exact Num64.nonNeg_ofRat _ (add_nonneg hx hy)
    | infinity t => exact hb
    | nan => exact hb.elim
  | infinity s =>
    cases b with
    | finite y => exact ha
    | infinity t =>
      have hs : s = false := ha
      have ht : t = false := hb
      subst hs; subst ht
      simp [Num64.add, Num64.NonNeg]
    | nan => exact hb.elim
  | nan => exact ha.elim

/-- Below `10 ^ 21` in magnitude `toFixed2` gives the `Number` of a hundredth
within half a hundredth of the exact value. -/
theorem Num64.toFixed2_finite (x : ℚ) (hx : |x| < (10 : ℚ) ^ 21) :
    ∃ n : ℤ, Num64.toFixed2 (.finite x) = Num64.ofRat ((n : ℚ) / 100) ∧
      |(n : ℚ) / 100 - x| ≤ 1 / 200 := by
  have hnot : ¬ (10 : ℚ) ^ 21 ≤ |x| := not_le.mpr hx
  have hfl := Int.floor_le (|x| * 100 + 1 / 2)
  have hlt := Int.lt_floor_add_one (|x| * 100 + 1 / 2)
  by_cases hneg : x < 0
  · refine ⟨-⌊|x| * 100 + 1 / 2⌋, ?_, ?_⟩
    · simp only [Num64.toFixed2, hnot, if_false, hneg, if_true]
      congr 1
      push_cast
      ring
    · rw [abs_of_neg hneg] at hfl hlt
      rw [abs_of_neg hneg, abs_le]
      push_cast
      constructor <;> linarith
  · refine ⟨⌊|x| * 100 + 1 / 2⌋, ?_, ?_⟩
    · simp only [Num64.toFixed2, hnot, if_false, hneg]
    · rw [abs_of_nonneg (not_lt.mp hneg)] at hfl hlt
      rw [abs_of_nonneg (not_lt.mp hneg), abs_le]
      constructor <;> linarith

/-- A finite result of `toFixed2` below `10 ^ 21` in magnitude is the `Number`
of a hundredth. -/
theorem Num64.toFixed2_hundredth (v : Num64) (x : ℚ)
    (hv : Num64.toFixed2 v = .finite x) (hx : |x| < (10 : ℚ) ^ 21) :
    ∃ n : ℤ, Num64.toFixed2 v = Num64.ofRat ((n : ℚ) / 100) := by
  cases v with
  | finite y =>
    by_cases hy : (10 : ℚ) ^ 21 ≤ |y|
    · have h : Num64.toFixed2 (.finite y) = .finite y := by
        simp only [Num64.toFixed2, hy, if_true]
      rw [h] at hv
      cases hv
      exact absurd hy (not_le.mpr hx)
    · obtain ⟨n, hn, _⟩ := Num64.toFixed2_finite y (not_le.mp hy)
      exact ⟨n, hn⟩
  | infinity s => cases hv
  | nan => cases hv

theorem Num64.toFixed2_nonNeg (v : Num64) (hv : v.NonNeg) :
    (Num64.toFixed2 v).NonNeg ∧ (Num64.toFixed2 v).IsCentsOrLarge := by
  cases v with
  | finite x =>
    have hx : (0 : ℚ) ≤ x := hv
    by_cases hbig : (10 : ℚ) ^ 21 ≤ |x|
    · have h : Num64.toFixed2 (.finite x) = .finite x := by
        simp only [Num64.toFixed2, hbig, if_true]
      rw [h]
      refine ⟨hv, Or.inr (Or.inr ⟨x, rfl, ?_⟩)⟩
      rwa [abs_of_nonneg hx] at hbig
    · have hfloor : 0 ≤ ⌊|x| * 100 + 1 / 2⌋ :=
        Int.floor_nonneg.mpr (by positivity)
      have h : Num64.toFixed2 (.finite x) =
          Num64.ofRat (((⌊|x| * 100 + 1 / 2⌋.toNat : ℕ) : ℚ) / 100) := by
        simp only [Num64.toFixed2, hbig, if_false, not_lt.mpr hx]
        congr 2
        have := Int.toNat_of_nonneg hfloor
        exact_mod_cast this.symm
      rw [h]
      exact ⟨Num64.nonNeg_ofRat _ (by positivity), Or.inl ⟨_, rfl⟩⟩
  | infinity s =>
    have hs : s = false := hv
    subst hs
    exact ⟨hv, Or.inr (Or.inl rfl)⟩
  | nan => exact hv.elim

theorem Num64.nonNeg_foldl (lines : List (ℚ × Int))
    (hprice : ∀ l ∈ lines, 0 ≤ l.1)
    (hqty : ∀ l ∈ lines, 0 < l.2 ∧ Num64.ofRat (l.2 : ℚ) = .finite (l.2 : ℚ))
    (acc : Num64) (hacc : acc.NonNeg) :
    (lines.foldl
      (fun subtotal line =>
        Num64.add subtotal (Num64.mul (Num64.ofRat line.1) (Num64.ofRat (line.2 : ℚ))))
      acc).NonNeg := by
  induction lines generalizing acc with
  | nil => exact hacc
  | cons l rest ih =>
    rw [List.foldl_cons]
    apply ih (fun l' hl' => hprice l' (List.mem_cons_of_mem _ hl'))
      (fun l' hl' => hqty l' (List.mem_cons_of_mem _ hl'))
    obtain ⟨hpos, hrep⟩ := hqty l (List.mem_cons_self _ _)
    rw [hrep]
    exact Num64.nonNeg_add _ _ hacc
      (Num64.nonNeg_mul _ _ (Num64.nonNeg_ofRat _ (hprice l (List.mem_cons_self _ _)))
        (by exact_mod_cast hpos))

theorem Num64.ofRat_taxRate :
    Num64.ofRat (7 / 100) = .finite (1261007895663739 / 18014398509481984) := by decide!


theorem checkoutTotals64_snoc (lines : List (ℚ × Int)) (p : ℚ) (q : Int) :
    (checkoutTotals64 (lines ++ [(p, q)])).1 =
      Num64.add (checkoutTotals64 lines).1 (Num64.mul (Num64.ofRat p) (Num64.ofRat (q : ℚ))) := by
  simp only [checkoutTotals64, List.foldl_append, List.foldl_cons, List.foldl_nil]

/-! ## Claims -/

/-- C1. From a database in which every product's stock is non-negative, any
finite sequence of addOne, setQuantity, remove and checkout requests, served
one after another for any users, leaves every product's stock non-negative. -/
theorem stock_never_negative (db : Db) (reqs : List Request)
    (h : ∀ p ∈ db.products, 0 ≤ p.stock) :
    ∀ p ∈ (run db reqs).products, 0 ≤ p.stock := by
  induction reqs generalizing db with
  | nil => simpa [run] using h
  | cons r rs ih =>
    have := ih (step db r) (step_stock_nonneg db r h)
    simpa [run] using this

/-- C1, witness: a run of six requests against the scenario database. -/
theorem stock_never_negative_witness :
    (∀ p ∈ dbScenario.products, 0 ≤ p.stock) ∧
    ∀ p ∈ (run dbScenario
        [.addOne 7 2, .setQuantity 7 1 5, .remove 8 1, .checkout 7 0 0,
         .addOne 8 1, .checkout 8 1 1]).products, 0 ≤ p.stock :=
  ⟨by decide, stock_never_negative dbScenario _ (by decide)⟩

/-- C2. When checkout answers EmptyCart, ProductNotFound or InsufficientStock,
the database after the call is the database before it: every cart, every
product and the order archive are unchanged. -/
theorem checkout_failure_changes_nothing (db : Db) (userId now newId : Nat)
    (h : (checkout db userId now newId).1 = .emptyCart ∨
         (checkout db userId now newId).1 = .productNotFound ∨
         ∃ name, (checkout db userId now newId).1 = .insufficientStock name) :
    (checkout db userId now newId).2 = db := by
  rcases checkout_cases db userId now newId with ⟨_, he⟩ | ⟨_, _, _, he⟩ | ⟨_, _, _, _, _, he⟩ |
    ⟨_, _, _, _, _, _, _, _, he⟩ | ⟨_, _, _, _, _, _, _, _, he⟩
  · rw [he]
  · rw [he]
  · rw [he]
  · rw [he] at h; simp at h
  · rw [he] at h; simp at h

/-- C2, witness: checkout of an empty cart. -/
theorem checkout_failure_changes_nothing_witness :
    (checkout dbScenario 8 0 0).1 = .emptyCart ∧ (checkout dbScenario 8 0 0).2 = dbScenario :=
  ⟨by decide, checkout_failure_changes_nothing dbScenario 8 0 0 (Or.inl (by decide))⟩

/-- C3. For an existing user, checkout answers with an order exactly when the
cart has at least one line and every line's product resolves with the line's
quantity at most the product's current stock; on a cart with no line it
answers EmptyCart. -/
theorem checkout_succeeds_iff (db : Db) (userId now newId : Nat) (user : User)
    (hu : findUser db.users userId = some user) :
    ((∃ o, (checkout db userId now newId).1 = .ok o) ↔
      (user.cart ≠ [] ∧
        ∀ it ∈ user.cart, ∃ p, findProduct db.products it.productId = some p ∧
          it.quantity ≤ p.stock)) ∧
    (user.cart = [] → (checkout db userId now newId).1 = .emptyCart) := by
  rcases checkout_cases db userId now newId with ⟨hn, _⟩ | ⟨u, hu', hc, he⟩ |
    ⟨u, e, hu', hc, hv, he⟩ | ⟨u, s, ois, ps, hu', hc, hv, hd, he⟩ |
    ⟨u, s, ois, ps, hu', hc, hv, hd, he⟩
  · rw [hn] at hu; cases hu
  · obtain rfl : u = user := Option.some.inj (hu'.symm.trans hu)
    rw [he]
    simp [hc]
  · obtain rfl : u = user := Option.some.inj (hu'.symm.trans hu)
    rw [he]
    refine ⟨⟨?_, ?_⟩, fun h => absurd h hc⟩
    · rintro ⟨o, ho⟩
      obtain ⟨_, _, _, _, _, h | ⟨_, _, _, h⟩⟩ := validateLoop_populate_error _ _ _ _ _ hv
      · rw [h.2] at ho; cases ho
      · rw [h] at ho; cases ho
    · rintro ⟨_, hall⟩
      obtain ⟨r, hr⟩ := validateLoop_populate_ok_of db.products u.cart 0 [] hall
      rw [hr] at hv; cases hv
  · obtain rfl : u = user := Option.some.inj (hu'.symm.trans hu)
    obtain ⟨hall, _⟩ := validateLoop_populate_ok _ _ _ _ _ _ hv
    obtain ⟨ps', hps'⟩ := decrementLoop_populate_ok db.products u.cart
      (fun it hit => (hall it hit).imp fun _ h => h.1) db.products
    rw [hps'] at hd; cases hd
  · obtain rfl : u = user := Option.some.inj (hu'.symm.trans hu)
    obtain ⟨hall, _⟩ := validateLoop_populate_ok _ _ _ _ _ _ hv
    rw [he]
    exact ⟨⟨fun _ => ⟨hc, hall⟩, fun _ => ⟨_, rfl⟩⟩, fun h => absurd h hc⟩

/-- C3, witness: user 7 of the scenario database. -/
theorem checkout_succeeds_iff_witness :
    findUser dbScenario.users 7 = some ⟨7, [⟨1, 3⟩]⟩ ∧
    (((∃ o, (checkout dbScenario 7 0 0).1 = .ok o) ↔
      ((⟨7, [⟨1, 3⟩]⟩ : User).cart ≠ [] ∧
        ∀ it ∈ (⟨7, [⟨1, 3⟩]⟩ : User).cart,
          ∃ p, findProduct dbScenario.products it.productId = some p ∧
            it.quantity ≤ p.stock)) ∧
    ((⟨7, [⟨1, 3⟩]⟩ : User).cart = [] → (checkout dbScenario 7 0 0).1 = .emptyCart)) :=
  ⟨by decide, checkout_succeeds_iff dbScenario 7 0 0 ⟨7, [⟨1, 3⟩]⟩ (by decide)⟩

/-- C4. After a successful checkout of a cart with at most one line per
product, each product referenced by a line is the same document with stock
lowered by exactly the line's quantity, and looking up any product not
referenced by the cart gives the same document as before. -/
theorem checkout_decrements_stock (db : Db) (userId now newId : Nat) (user : User)
    (o : OrderSummary)
    (hu : findUser db.users userId = some user)
    (hnd : (user.cart.map (fun it => it.productId)).Nodup)
    (hok : (checkout db userId now newId).1 = .ok o) :
    (∀ it ∈ user.cart, ∃ p, findProduct db.products it.productId = some p ∧
        findProduct (checkout db userId now newId).2.products it.productId =
          some { p with stock := p.stock - it.quantity }) ∧
    (∀ id, (∀ it ∈ user.cart, it.productId ≠ id) →
        findProduct (checkout db userId now newId).2.products id =
          findProduct db.products id) := by
  rcases checkout_cases db userId now newId with ⟨hn, _⟩ | ⟨u, hu', hc, he⟩ |
    ⟨u, e, hu', hc, hv, he⟩ | ⟨u, s, ois, ps, hu', hc, hv, hd, he⟩ |
    ⟨u, s, ois, ps, hu', hc, hv, hd, he⟩
  · rw [hn] at hu; cases hu
  · rw [he] at hok; cases hok
  · obtain ⟨_, _, _, _, _, h | ⟨_, _, _, h⟩⟩ := validateLoop_populate_error _ _ _ _ _ hv
    · rw [he, h.2] at hok; cases hok
    · rw [he, h] at hok; cases hok
  · rw [he] at hok; cases hok
  · obtain rfl : u = user := Option.some.inj (hu'.symm.trans hu)
    obtain ⟨hall, _⟩ := validateLoop_populate_ok _ _ _ _ _ _ hv
    have hres : ∀ it ∈ u.cart, ∃ p, findProduct db.products it.productId = some p :=
      fun it hit => (hall it hit).imp fun _ h => h.1
    rw [he]
    refine ⟨?_, ?_⟩
    · intro it hit
      obtain ⟨p, hp, hq⟩ := hall it hit
      refine ⟨p, hp, ?_⟩
      have := decrementLoop_populate_exact db.products u.cart hnd hres _ _ hd it hit p hp
      have hneg : ¬ p.stock - it.quantity < 0 := by omega
      simpa only [hneg, if_false] using this
    · intro id hid
      exact decrementLoop_populate_frame db.products u.cart id hid _ _ hd

/-- C4, witness: stock 5 and quantity 3 give stock 2, and the other product is untouched. -/
theorem checkout_decrements_stock_witness :
    findProduct (checkout dbScenario 7 0 0).2.products 1 = some ⟨1, "P", some "Books", 20, 2⟩ ∧
    findProduct (checkout dbScenario 7 0 0).2.products 2 = some ⟨2, "Q", none, 3, 4⟩ := by
  have h := checkout_decrements_stock dbScenario 7 0 0 ⟨7, [⟨1, 3⟩]⟩
    ⟨0, 60, 42 / 10, 642 / 10⟩ (by decide) (by decide) (by decide!)
  obtain ⟨p, hp, hp'⟩ := h.1 ⟨1, 3⟩ (by simp)
  have h2 := h.2 2 (by simp)
  have : p = ⟨1, "P", some "Books", 20, 5⟩ := by
    have : findProduct dbScenario.products 1 = some ⟨1, "P", some "Books", 20, 5⟩ := by decide
    exact Option.some.inj (hp.symm.trans this)
  subst this
  exact ⟨hp', h2.trans (by decide)⟩

/-- C5. A successful checkout appends exactly one order to the archive and
leaves every earlier order in place.  The new order is owned by the calling
user; its lines follow the cart lines in order, each with the line's product
and quantity and the product's price at checkout time; its subtotal is the
sum of price at purchase times quantity over its lines. -/
theorem checkout_appends_order (db : Db) (userId now newId : Nat) (user : User)
    (o : OrderSummary)
    (hu : findUser db.users userId = some user)
    (hok : (checkout db userId now newId).1 = .ok o) :
    ∃ order : Order,
      (checkout db userId now newId).2.orders = db.orders ++ [order] ∧
      order.user = userId ∧
      List.Forall₂ (fun (it : CartItem) (oi : OrderItem) =>
          oi.productId = it.productId ∧ oi.quantity = it.quantity ∧
            ∃ p, findProduct db.products it.productId = some p ∧ oi.priceAtPurchase = p.price)
        user.cart order.items ∧
      order.subtotal =
        (order.items.map (fun oi => oi.priceAtPurchase * (oi.quantity : ℚ))).sum := by
  rcases checkout_cases db userId now newId with ⟨hn, _⟩ | ⟨u, hu', hc, he⟩ |
    ⟨u, e, hu', hc, hv, he⟩ | ⟨u, s, ois, ps, hu', hc, hv, hd, he⟩ |
    ⟨u, s, ois, ps, hu', hc, hv, hd, he⟩
  · rw [hn] at hu; cases hu
  · rw [he] at hok; cases hok
  · obtain ⟨_, _, _, _, _, h | ⟨_, _, _, h⟩⟩ := validateLoop_populate_error _ _ _ _ _ hv
    · rw [he, h.2] at hok; cases hok
    · rw [he, h] at hok; cases hok
  · rw [he] at hok; cases hok
  · obtain rfl : u = user := Option.some.inj (hu'.symm.trans hu)
    obtain ⟨_, ois', hois, hs, hfa⟩ := validateLoop_populate_ok _ _ _ _ _ _ hv
    simp only [List.nil_append] at hois
    subst hois
    rw [he]
    exact ⟨_, rfl, findUser_id hu, hfa, by simpa using hs⟩

/-- C5, witness: user 7 of the scenario database. -/
theorem checkout_appends_order_witness :
    ∃ order : Order,
      (checkout dbScenario 7 0 0).2.orders = dbScenario.orders ++ [order] ∧
      order.user = 7 ∧
      List.Forall₂ (fun (it : CartItem) (oi : OrderItem) =>
          oi.productId = it.productId ∧ oi.quantity = it.quantity ∧
            ∃ p, findProduct dbScenario.products it.productId = some p ∧
              oi.priceAtPurchase = p.price)
        (⟨7, [⟨1, 3⟩]⟩ : User).cart order.items ∧
      order.subtotal =
        (order.items.map (fun oi => oi.priceAtPurchase * (oi.quantity : ℚ))).sum :=
  checkout_appends_order dbScenario 7 0 0 ⟨7, [⟨1, 3⟩]⟩ ⟨0, 60, 42 / 10, 642 / 10⟩
    (by decide) (by decide!)

/-- C6. After a successful checkout the calling user's cart has no line, and
every other user's document, cart included, is what it was before. -/
theorem checkout_clears_cart (db : Db) (userId now newId : Nat) (o : OrderSummary)
    (hok : (checkout db userId now newId).1 = .ok o) :
    (∃ u, findUser (checkout db userId now newId).2.users userId = some u ∧ u.cart = []) ∧
    (∀ other, other ≠ userId →
        findUser (checkout db userId now newId).2.users other = findUser db.users other) := by
  rcases checkout_cases db userId now newId with ⟨hn, he⟩ | ⟨u, hu', hc, he⟩ |
    ⟨u, e, hu', hc, hv, he⟩ | ⟨u, s, ois, ps, hu', hc, hv, hd, he⟩ |
    ⟨u, s, ois, ps, hu', hc, hv, hd, he⟩
  · rw [he] at hok; cases hok
  · rw [he] at hok; cases hok
  · obtain ⟨_, _, _, _, _, h | ⟨_, _, _, h⟩⟩ := validateLoop_populate_error _ _ _ _ _ hv
    · rw [he, h.2] at hok; cases hok
    · rw [he, h] at hok; cases hok
  · rw [he] at hok; cases hok
  · have hid : u._id = userId := findUser_id hu'
    rw [he]
    refine ⟨⟨{ u with cart := [] }, ?_, rfl⟩, ?_⟩
    · simp only [findUser_saveUser, hid, if_true, hu', Option.map_some']
    · intro other hne
      simp only [findUser_saveUser, hid, hne, if_false]

/-- C6, witness: user 7 of the scenario database. -/
theorem checkout_clears_cart_witness :
    (checkout dbScenario 7 0 0).1 = .ok ⟨0, 60, 42 / 10, 642 / 10⟩ ∧
    (∃ u, findUser (checkout dbScenario 7 0 0).2.users 7 = some u ∧ u.cart = []) ∧
    (∀ other, other ≠ 7 →
        findUser (checkout dbScenario 7 0 0).2.users other = findUser dbScenario.users other) :=
  ⟨by decide!, checkout_clears_cart dbScenario 7 0 0 ⟨0, 60, 42 / 10, 642 / 10⟩ (by decide!)⟩

/-- C7. On doubles, the subtotal that checkout computes is the sum of unit
price times quantity accumulated line by line from 0, the tax is `round2` of
the subtotal times the `Number` 0.07 and the total is `round2` of the subtotal
plus the tax, where `round2` is `+(x).toFixed(2)`: below `10 ^ 21` in magnitude
it gives the `Number` of a hundredth within half a hundredth of the exact
value of `x`.  The lines (10.00, 2), (5.00, 3), which are those of the order
of the pricing example, give 35.00, 2.45 and 37.45; the line (20.00, 3) of the
scenario gives 60.00, 4.20 and 64.20; the line (118.50, 1), whose tax falls on
a half cent, gives 118.50, 8.29 and 126.79. -/
theorem checkout_totals64 :
    (checkoutTotals64 []).1 = .finite 0 ∧
    (∀ (lines : List (ℚ × Int)) (p : ℚ) (q : Int),
      (checkoutTotals64 (lines ++ [(p, q)])).1 =
        Num64.add (checkoutTotals64 lines).1
          (Num64.mul (Num64.ofRat p) (Num64.ofRat (q : ℚ)))) ∧
    (∀ lines : List (ℚ × Int),
      (checkoutTotals64 lines).2.1 =
        Num64.toFixed2 (Num64.mul (checkoutTotals64 lines).1 (Num64.ofRat (7 / 100))) ∧
      (checkoutTotals64 lines).2.2 =
        Num64.toFixed2 (Num64.add (checkoutTotals64 lines).1 (checkoutTotals64 lines).2.1)) ∧
    (∀ x : ℚ, |x| < (10 : ℚ) ^ 21 →
      ∃ n : ℤ, Num64.toFixed2 (.finite x) = Num64.ofRat ((n : ℚ) / 100) ∧
        |(n : ℚ) / 100 - x| ≤ 1 / 200) ∧
    (checkout dbPricing 7 0 0).2.orders.map
        (fun o => o.items.map (fun oi => (oi.priceAtPurchase, oi.quantity))) =
      [[(10, 2), (5, 3)]] ∧
    checkoutTotals64 [(10, 2), (5, 3)] =
      (Num64.ofRat 35, Num64.ofRat 2.45, Num64.ofRat 37.45) ∧
    (checkout dbScenario 7 0 0).2.orders.map
        (fun o => o.items.map (fun oi => (oi.priceAtPurchase, oi.quantity))) =
      [[(20, 3)]] ∧
    checkoutTotals64 [(20, 3)] = (Num64.ofRat 60, Num64.ofRat 4.20, Num64.ofRat 64.20) ∧
    checkoutTotals64 [(118.5, 1)] =
      (Num64.ofRat 118.5, Num64.ofRat 8.29, Num64.ofRat 126.79) :=
  ⟨rfl, checkoutTotals64_snoc, fun _ => ⟨rfl, rfl⟩, Num64.toFixed2_finite,
    by decide!, by decide!, by decide!, by decide!, by decide!⟩

/-- C7, witness: `round2` of the product 118.5 times 0.07, a double just below
8.295, is the `Number` 8.29. -/
theorem checkout_totals64_witness :
    ∃ n : ℤ,
      Num64.toFixed2 (.finite (4669669863629783 / 562949953421312)) =
        Num64.ofRat ((n : ℚ) / 100) ∧
      |(n : ℚ) / 100 - 4669669863629783 / 562949953421312| ≤ 1 / 200 :=
  checkout_totals64.2.2.2.1 (4669669863629783 / 562949953421312) (by decide!)

/-- C8 as stated fails.  On one unit at a price of 1.234 the subtotal is the
`Number` 1.234, which `round2` would change to 1.23, the tax is 0.09 and the
total is 1.32, while subtotal plus tax is 1.324.  On one unit at a price of
231, where subtotal and tax both have two decimal places, the tax is 16.17
and the total is 247.17, while subtotal plus tax is the next double above
247.17, which prints as 247.17000000000002. -/
theorem order_total_counterexample64 :
    checkoutTotals64 [(1.234, 1)] = (Num64.ofRat 1.234, Num64.ofRat 0.09, Num64.ofRat 1.32) ∧
    Num64.toFixed2 (checkoutTotals64 [(1.234, 1)]).1 = Num64.ofRat 1.23 ∧
    Num64.toFixed2 (checkoutTotals64 [(1.234, 1)]).1 ≠ (checkoutTotals64 [(1.234, 1)]).1 ∧
    Num64.add (checkoutTotals64 [(1.234, 1)]).1 (checkoutTotals64 [(1.234, 1)]).2.1 =
      Num64.ofRat 1.324 ∧
    (checkoutTotals64 [(1.234, 1)]).2.2 ≠
      Num64.add (checkoutTotals64 [(1.234, 1)]).1 (checkoutTotals64 [(1.234, 1)]).2.1 ∧
    checkoutTotals64 [(231, 1)] = (Num64.ofRat 231, Num64.ofRat 16.17, Num64.ofRat 247.17) ∧
    Num64.ofRat 247.17 = .finite (8696521249196605 / 35184372088832) ∧
    Num64.add (checkoutTotals64 [(231, 1)]).1 (checkoutTotals64 [(231, 1)]).2.1 =
      .finite (8696521249196606 / 35184372088832) ∧
    (checkoutTotals64 [(231, 1)]).2.2 ≠
      Num64.add (checkoutTotals64 [(231, 1)]).1 (checkoutTotals64 [(231, 1)]).2.1 :=
  ⟨by decide!, by decide!, by decide!, by decide!, by decide!, by decide!, by decide!,
    by decide!, by decide!⟩

/-- C8, amended. On doubles, for every list of lines the total that checkout
stores is `round2` of the subtotal plus the tax, and the tax and the total,
when finite and below `10 ^ 21` in magnitude, are each the `Number` of a
decimal with at most two places.  The subtotal is stored as accumulated. -/
theorem order_total_rounded64 (lines : List (ℚ × Int)) :
    (checkoutTotals64 lines).2.2 =
      Num64.toFixed2 (Num64.add (checkoutTotals64 lines).1 (checkoutTotals64 lines).2.1) ∧
    (∀ x : ℚ, (checkoutTotals64 lines).2.1 = .finite x → |x| < (10 : ℚ) ^ 21 →
      ∃ n : ℤ, (checkoutTotals64 lines).2.1 = Num64.ofRat ((n : ℚ) / 100)) ∧
    (∀ x : ℚ, (checkoutTotals64 lines).2.2 = .finite x → |x| < (10 : ℚ) ^ 21 →
      ∃ n : ℤ, (checkoutTotals64 lines).2.2 = Num64.ofRat ((n : ℚ) / 100)) :=
  ⟨rfl, fun x hx hlt => Num64.toFixed2_hundredth _ x hx hlt,
    fun x hx hlt => Num64.toFixed2_hundredth _ x hx hlt⟩

/-- C8, witness of the amended statement: on one unit at 1.234 the tax is the
`Number` 0.09, of 9 hundredths. -/
theorem order_total_rounded64_witness :
    ∃ n : ℤ, (checkoutTotals64 [(1.234, 1)]).2.1 = Num64.ofRat ((n : ℚ) / 100) :=
  (order_total_rounded64 [(1.234, 1)]).2.1 (3242591731706757 / 36028797018963968)
    (by decide!) (by decide!)

/-- C9 as stated fails: user 7's cart holds a line whose product does not
resolve, yet checkout answers InsufficientStock for the line before it,
not ProductNotFound. -/
theorem checkout_missing_product_counterexample :
    findUser dbCheckoutErrors.users 7 = some ⟨7, [⟨1, 5⟩, ⟨99, 1⟩]⟩ ∧
    findProduct dbCheckoutErrors.products 99 = none ∧
    (checkout dbCheckoutErrors 7 0 0).1 = .insufficientStock "Kettle" ∧
    (checkout dbCheckoutErrors 7 0 0).1 ≠ .productNotFound := by
  decide

/-- C9, amended. Take a cart whose first unresolvable line is preceded only
by lines that resolve.  Checkout fails with ProductNotFound exactly when each
of those preceding lines has quantity at most its product's stock, whatever
follows the unresolvable line; otherwise it fails with InsufficientStock for
a preceding line.  Either way the database is unchanged, and the
ProductNotFound response carries a fixed message without the product. -/
theorem checkout_missing_product (db : Db) (userId now newId : Nat) (user : User)
    (pre : List CartItem) (it : CartItem) (post : List CartItem)
    (hu : findUser db.users userId = some user)
    (hcart : user.cart = pre ++ it :: post)
    (hpre : ∀ l ∈ pre, ∃ p, findProduct db.products l.productId = some p)
    (hit : findProduct db.products it.productId = none) :
    ((checkout db userId now newId).1 = .productNotFound ↔
      ∀ l ∈ pre, ∀ p, findProduct db.products l.productId = some p → l.quantity ≤ p.stock) ∧
    ((checkout db userId now newId).1 = .productNotFound ∨
      ∃ l ∈ pre, ∃ p, findProduct db.products l.productId = some p ∧ l.quantity > p.stock ∧
        (checkout db userId now newId).1 = .insufficientStock p.name) ∧
    (checkout db userId now newId).2 = db ∧
    CheckoutResponse.productNotFound.message = "One of the products no longer exists." := by
  have hc : user.cart ≠ [] := by rw [hcart]; simp
  obtain ⟨h1, h2⟩ := validateLoop_populate_missing db.products pre it post hit 0 [] hpre
  rw [← hcart] at h1 h2
  have hkey : ∀ e, validateLoop (populate db.products user.cart) 0 [] = .error e →
      checkout db userId now newId = (e, db) :=
    fun e he => checkout_eq_of_validate_error db userId now newId user e hu hc he
  rcases h2 with h2 | ⟨l, hl, p, hp, hgt, he⟩
  · have := hkey _ h2
    rw [this]
    exact ⟨⟨fun _ => h1.mp h2, fun _ => rfl⟩, Or.inl rfl, rfl, rfl⟩
  · have := hkey _ he
    rw [this]
    refine ⟨⟨fun h => (by cases h), fun hall => ?_⟩, Or.inr ⟨l, hl, p, hp, hgt, rfl⟩, rfl, rfl⟩
    exact absurd (hall l hl p hp) (not_le.mpr hgt)

/-- C9, witness of the amended statement: a good line, then a line whose product is gone. -/
theorem checkout_missing_product_witness :
    (checkout dbCheckoutErrors 8 0 0).1 = .productNotFound ∧
    (checkout dbCheckoutErrors 8 0 0).2 = dbCheckoutErrors := by
  have h := checkout_missing_product dbCheckoutErrors 8 0 0 ⟨8, [⟨2, 3⟩, ⟨99, 1⟩, ⟨1, 5⟩]⟩
    [⟨2, 3⟩] ⟨99, 1⟩ [⟨1, 5⟩] (by decide) (by decide)
    (by simp [findProduct, dbCheckoutErrors]) (by decide)
  exact ⟨h.1.mpr (by decide), h.2.2.1⟩

/-- C10. When every line of the user's cart resolves and some line has
quantity above its product's current stock, checkout fails with
InsufficientStock carrying the name of the product of the first such line in
cart order, and changes nothing. -/
theorem checkout_insufficient_stock (db : Db) (userId now newId : Nat) (user : User)
    (hu : findUser db.users userId = some user)
    (hres : ∀ it ∈ user.cart, ∃ p, findProduct db.products it.productId = some p)
    (hshort : ∃ it ∈ user.cart, ∃ p, findProduct db.products it.productId = some p ∧
      it.quantity > p.stock) :
    ∃ pre it post p,
      user.cart = pre ++ it :: post ∧
      (∀ l ∈ pre, ∃ q, findProduct db.products l.productId = some q ∧ l.quantity ≤ q.stock) ∧
      findProduct db.products it.productId = some p ∧ it.quantity > p.stock ∧
      checkout db userId now newId = (.insufficientStock p.name, db) := by
  obtain ⟨bad, hbad, pb, hpb, hgt⟩ := hshort
  have hc : user.cart ≠ [] := List.ne_nil_of_mem hbad
  cases hv : validateLoop (populate db.products user.cart) 0 [] with
  | ok r =>
    obtain ⟨hall, _⟩ := validateLoop_populate_ok _ _ _ _ r.1 r.2 hv
    obtain ⟨p, hp, hle⟩ := hall bad hbad
    rw [hpb] at hp; cases hp
    exact absurd hle (not_le.mpr hgt)
  | error e =>
    obtain ⟨pre, it, post, hcart, hpre, h | ⟨p, hp, hq, he⟩⟩ :=
      validateLoop_populate_error _ _ _ _ _ hv
    · obtain ⟨p, hp⟩ := hres it (by rw [hcart]; simp)
      rw [h.1] at hp; cases hp
    · subst he
      exact ⟨pre, it, post, p, hcart, hpre, hp, hq,
        checkout_eq_of_validate_error db userId now newId user _ hu hc hv⟩

/-- C10, witness: the second of three lines is the first to exceed stock. -/
theorem checkout_insufficient_stock_witness :
    ∃ pre it post p,
      (⟨9, [⟨2, 3⟩, ⟨1, 5⟩, ⟨2, 9⟩]⟩ : User).cart = pre ++ it :: post ∧
      (∀ l ∈ pre, ∃ q, findProduct dbCheckoutErrors.products l.productId = some q ∧
        l.quantity ≤ q.stock) ∧
      findProduct dbCheckoutErrors.products it.productId = some p ∧ it.quantity > p.stock ∧
      checkout dbCheckoutErrors 9 0 0 = (.insufficientStock p.name, dbCheckoutErrors) :=
  checkout_insufficient_stock dbCheckoutErrors 9 0 0 ⟨9, [⟨2, 3⟩, ⟨1, 5⟩, ⟨2, 9⟩]⟩
    (by decide) (by simp [findProduct, dbCheckoutErrors])
    ⟨⟨1, 5⟩, by simp, ⟨1, "Kettle", none, 10, 1⟩, by decide, by decide⟩

/-- C11. For an existing user, with q the quantity of the cart's line for the
product (0 without a line): addOne answers ProductNotFound when the product
does not resolve and InsufficientStock when q + 1 exceeds the stock, the
database being unchanged in both cases; otherwise it succeeds, the cart's line
for the product has quantity q + 1, the lines of other products are unchanged,
and a cart that had at most one line for the product has exactly one. -/
theorem addOne_result (db : Db) (userId productId : Nat) (user : User)
    (hu : findUser db.users userId = some user) :
    (findProduct db.products productId = none →
      addOne db userId productId = (.productNotFound, db)) ∧
    (∀ product, findProduct db.products productId = some product →
      (lineQuantity user.cart productId + 1 > product.stock →
        addOne db userId productId = (.insufficientStock, db)) ∧
      (lineQuantity user.cart productId + 1 ≤ product.stock →
        (addOne db userId productId).1 = .ok ∧
        ∃ user', findUser (addOne db userId productId).2.users userId = some user' ∧
          findItem user'.cart productId =
            some ⟨productId, lineQuantity user.cart productId + 1⟩ ∧
          removeItem user'.cart productId = removeItem user.cart productId ∧
          (user.cart.countP (fun it => it.productId == productId) ≤ 1 →
            user'.cart.countP (fun it => it.productId == productId) = 1))) := by
  refine ⟨fun hp => by simp only [addOne, hu, hp], fun product hp => ?_⟩
  obtain ⟨cart', hcart', h1, h2, h3⟩ := addOne_cart user.cart productId
  cases hf : findItem user.cart productId with
  | none =>
    have hq : lineQuantity user.cart productId = 0 := by simp [lineQuantity, hf]
    obtain ⟨hfail, hok⟩ := addOne_eq_of_no_line db userId productId user product hu hp hf
    rw [hq, zero_add]
    refine ⟨hfail, fun hle => ?_⟩
    rw [hok hle]
    simp only [hf] at hcart'
    rw [hq, zero_add] at h1
    refine ⟨rfl, ⟨user._id, cart'⟩, ?_, h1, h2, h3⟩
    rw [hcart']
    exact findUser_saveUser_self _ hu
  | some e =>
    have hq : lineQuantity user.cart productId = e.quantity := by simp [lineQuantity, hf]
    obtain ⟨hfail, hok⟩ := addOne_eq_of_line db userId productId user product e hu hp hf
    rw [hq]
    refine ⟨hfail, fun hle => ?_⟩
    rw [hok hle]
    simp only [hf, hq] at hcart'
    rw [hq] at h1
    refine ⟨rfl, ⟨user._id, cart'⟩, ?_, h1, h2, h3⟩
    rw [hcart']
    exact findUser_saveUser_self _ hu

/-- C11, witness: user 7 of the scenario database holds three of product 1,
whose stock is 5, and product 99 does not exist. -/
theorem addOne_result_witness :
    (addOne dbScenario 7 1).1 = .ok ∧
    addOne dbScenario 7 99 = (.productNotFound, dbScenario) :=
  ⟨(((addOne_result dbScenario 7 1 ⟨7, [⟨1, 3⟩]⟩ (by decide)).2
      ⟨1, "P", some "Books", 20, 5⟩ (by decide)).2 (by decide)).1,
   (addOne_result dbScenario 7 99 ⟨7, [⟨1, 3⟩]⟩ (by decide)).1 (by decide)⟩

/-- C12. For a product with stock `s` and a user whose cart has no line for
it, `n` consecutive addOne requests succeed on the first `min n s` calls and
answer InsufficientStock on every later one; afterwards the cart's line for
the product has quantity `min n s`, and there is no line when that is 0. -/
theorem addOne_ceiling (db : Db) (userId productId : Nat) (user : User) (product : Product)
    (s n : Nat)
    (hu : findUser db.users userId = some user)
    (hp : findProduct db.products productId = some product)
    (hs : product.stock = (s : Int))
    (hno : findItem user.cart productId = none) :
    (addOneRepeat userId productId n db).1 =
        List.replicate (min n s) CartResponse.ok ++
          List.replicate (n - min n s) CartResponse.insufficientStock ∧
    ∃ user', findUser (addOneRepeat userId productId n db).2.users userId = some user' ∧
      findItem user'.cart productId =
        (if min n s = 0 then none else some ⟨productId, ((min n s : Nat) : Int)⟩) := by
  have h := addOneRepeat_from_count userId productId product s hs n db user 0 (Nat.zero_le _)
    hu hp (by simpa using hno)
  simpa using h

/-- C12, witness: stock 3 and four calls; the fourth call fails and the
quantity stays 3. -/
theorem addOne_ceiling_witness :
    (addOneRepeat 7 1 4 dbCeiling).1 = [.ok, .ok, .ok, .insufficientStock] ∧
    ∃ user', findUser (addOneRepeat 7 1 4 dbCeiling).2.users 7 = some user' ∧
      findItem user'.cart 1 = some ⟨1, 3⟩ := by
  have h := addOne_ceiling dbCeiling 7 1 ⟨7, []⟩ ⟨1, "Lamp", none, 12, 3⟩ 3 4
    (by decide) (by decide) (by decide) (by decide)
  simpa using h

/-- C13. On a cart that has a line for a product that resolves, setQuantity
with a positive quantity at most the stock succeeds and the cart afterwards is
the cart before with that line's quantity replaced, every other line in
place; with a quantity above the stock it answers InsufficientStock and the
database is unchanged. -/
theorem setQuantity_positive (db : Db) (userId productId : Nat) (quantity : Int)
    (user : User) (product : Product) (e : CartItem)
    (hu : findUser db.users userId = some user)
    (hp : findProduct db.products productId = some product)
    (hf : findItem user.cart productId = some e)
    (hq : 0 < quantity) :
    (quantity ≤ product.stock →
      (setQuantity db userId productId quantity).1 = .ok ∧
      ∃ pre post, user.cart = pre ++ e :: post ∧ (∀ l ∈ pre, l.productId ≠ productId) ∧
        findUser (setQuantity db userId productId quantity).2.users userId =
          some ⟨user._id, pre ++ ⟨productId, quantity⟩ :: post⟩) ∧
    (quantity > product.stock →
      setQuantity db userId productId quantity = (.insufficientStock, db)) := by
  obtain ⟨_, hfail, hok⟩ := setQuantity_eq db userId productId quantity user product e hu hp hf
  refine ⟨fun hle => ?_, hfail hq⟩
  obtain ⟨pre, post, hc, hpre, hset⟩ := findItem_split hf
  rw [hok hq hle]
  refine ⟨rfl, pre, post, hc, hpre, ?_⟩
  rw [← hset quantity]
  exact findUser_saveUser_self _ hu

/-- C13, witness: user 7 of the scenario database sets product 1, of stock
5, from quantity 3 to quantity 5. -/
theorem setQuantity_positive_witness :
    (setQuantity dbScenario 7 1 5).1 = .ok ∧
    setQuantity dbScenario 7 1 6 = (.insufficientStock, dbScenario) :=
  ⟨((setQuantity_positive dbScenario 7 1 5 ⟨7, [⟨1, 3⟩]⟩ ⟨1, "P", some "Books", 20, 5⟩ ⟨1, 3⟩
      (by decide) (by decide) (by decide) (by decide)).1 (by decide)).1,
   (setQuantity_positive dbScenario 7 1 6 ⟨7, [⟨1, 3⟩]⟩ ⟨1, "P", some "Books", 20, 5⟩ ⟨1, 3⟩
      (by decide) (by decide) (by decide) (by decide)).2 (by decide)⟩

/-- C14 as stated fails: user 10 holds a line for product 99, which does not
resolve; setQuantity with quantity 0 answers ProductNotFound and keeps the
line, while remove drops it. -/
theorem setQuantity_remove_counterexample :
    setQuantity dbCheckoutErrors 10 99 0 = (.productNotFound, dbCheckoutErrors) ∧
    findUser (setQuantity dbCheckoutErrors 10 99 0).2.users 10 = some ⟨10, [⟨99, 1⟩]⟩ ∧
    findUser (remove dbCheckoutErrors 10 99).2.users 10 = some ⟨10, []⟩ := by
  decide

/-- C14, amended. For a quantity of zero or less and a product that resolves,
setQuantity leaves the database exactly as remove leaves it, the caller's cart
being the cart before without the lines of that product; when the product
does not resolve, setQuantity leaves the database unchanged and answers
ProductNotFound to an existing user. -/
theorem setQuantity_nonpositive (db : Db) (userId productId : Nat) (quantity : Int)
    (hq : quantity ≤ 0) :
    (∀ product, findProduct db.products productId = some product →
      (setQuantity db userId productId quantity).2 = (remove db userId productId).2 ∧
      ∀ user, findUser db.users userId = some user →
        findUser (setQuantity db userId productId quantity).2.users userId =
          some ⟨user._id, user.cart.filter (fun l => l.productId != productId)⟩) ∧
    (findProduct db.products productId = none →
      (setQuantity db userId productId quantity).2 = db ∧
      ∀ user, findUser db.users userId = some user →
        (setQuantity db userId productId quantity).1 = .productNotFound) := by
  constructor
  · intro product hp
    cases hu : findUser db.users userId with
    | none =>
      rw [setQuantity_eq_of_no_user db userId productId quantity hu,
        remove_eq_of_no_user db userId productId hu]
      exact ⟨rfl, fun _ h => by cases h⟩
    | some user =>
      have hrem := remove_eq db userId productId user hu
      cases hf : findItem user.cart productId with
      | none =>
        have hself : removeItem user.cart productId = user.cart :=
          removeItem_eq_self ((findItem_eq_none_iff _ _).mp hf)
        have hsave : saveUser db.users ⟨user._id, user.cart⟩ = db.users := saveUser_self hu
        rw [setQuantity_eq_of_no_line db userId productId quantity user product hu hp hf, hrem,
          hself, hsave]
        refine ⟨rfl, fun user' hu' => ?_⟩
        cases hu'
        show findUser db.users userId = some ⟨user._id, removeItem user.cart productId⟩
        rw [hself]
        exact hu
      | some e =>
        rw [(setQuantity_eq db userId productId quantity user product e hu hp hf).1 hq, hrem]
        refine ⟨rfl, fun user' hu' => ?_⟩
        cases hu'
        exact findUser_saveUser_self _ hu
  · intro hp
    cases hu : findUser db.users userId with
    | none =>
      rw [setQuantity_eq_of_no_user db userId productId quantity hu]
      exact ⟨rfl, fun _ h => by cases h⟩
    | some user =>
      rw [setQuantity_eq_of_no_product db userId productId quantity user hu hp]
      exact ⟨rfl, fun _ _ => rfl⟩

/-- C14, witness of the amended statement: user 7 of the scenario database
sets product 1 to quantity 0. -/
theorem setQuantity_nonpositive_witness :
    (setQuantity dbScenario 7 1 0).2 = (remove dbScenario 7 1).2 :=
  ((setQuantity_nonpositive dbScenario 7 1 0 (by decide)).1
    ⟨1, "P", some "Books", 20, 5⟩ (by decide)).1

/-- C15 as stated fails: for product 99, which does not resolve, setQuantity
answers ProductNotFound, both to user 10, whose cart has a line for it, and to
user 9, whose cart has none. -/
theorem setQuantity_responses_counterexample :
    (setQuantity dbCheckoutErrors 10 99 1).1 = .productNotFound ∧
    findItem (⟨9, [⟨2, 3⟩, ⟨1, 5⟩, ⟨2, 9⟩]⟩ : User).cart 99 = none ∧
    findUser dbCheckoutErrors.users 9 = some ⟨9, [⟨2, 3⟩, ⟨1, 5⟩, ⟨2, 9⟩]⟩ ∧
    (setQuantity dbCheckoutErrors 9 99 1).1 ≠ .itemNotInCart := by
  decide

/-- C15, amended. For an existing user setQuantity answers success,
ProductNotFound, ItemNotInCart or InsufficientStock: ProductNotFound exactly
when the product does not resolve, ItemNotInCart exactly when the product
resolves and the cart has no line for it, and InsufficientStock exactly when
the product resolves, the cart has a line for it and the quantity is positive
and above the stock. -/
theorem setQuantity_responses (db : Db) (userId productId : Nat) (quantity : Int)
    (user : User) (hu : findUser db.users userId = some user) :
    ((setQuantity db userId productId quantity).1 = .ok ∨
        (setQuantity db userId productId quantity).1 = .productNotFound ∨
        (setQuantity db userId productId quantity).1 = .itemNotInCart ∨
        (setQuantity db userId productId quantity).1 = .insufficientStock) ∧
    ((setQuantity db userId productId quantity).1 = .productNotFound ↔
      findProduct db.products productId = none) ∧
    ((setQuantity db userId productId quantity).1 = .itemNotInCart ↔
      (∃ product, findProduct db.products productId = some product) ∧
        findItem user.cart productId = none) ∧
    ((setQuantity db userId productId quantity).1 = .insufficientStock ↔
      ∃ product, findProduct db.products productId = some product ∧
        (∃ e, findItem user.cart productId = some e) ∧
        0 < quantity ∧ quantity > product.stock) := by
  cases hp : findProduct db.products productId with
  | none =>
    rw [setQuantity_eq_of_no_product db userId productId quantity user hu hp]
    simp
  | some product =>
    cases hf : findItem user.cart productId with
    | none =>
      rw [setQuantity_eq_of_no_line db userId productId quantity user product hu hp hf]
      simp
    | some e =>
      obtain ⟨h1, h2, h3⟩ := setQuantity_eq db userId productId quantity user product e hu hp hf
      by_cases hq : quantity ≤ 0
      · rw [h1 hq]
        refine ⟨Or.inl rfl, by simp, by simp, ⟨fun h => (by cases h), ?_⟩⟩
        rintro ⟨_, _, _, hpos, _⟩
        omega
      · have hq' : 0 < quantity := not_le.mp hq
        by_cases hs : quantity > product.stock
        · rw [h2 hq' hs]
          simp [hq', hs]
        · rw [h3 hq' (not_lt.mp hs)]
          simp [hq', hs]

/-- C15, witness of the amended statement: user 7 of the scenario database
asks for six of product 1, whose stock is 5. -/
theorem setQuantity_responses_witness :
    (setQuantity dbScenario 7 1 6).1 = .insufficientStock :=
  (setQuantity_responses dbScenario 7 1 6 ⟨7, [⟨1, 3⟩]⟩ (by decide)).2.2.2.mpr
    ⟨⟨1, "P", some "Books", 20, 5⟩, by decide, ⟨⟨1, 3⟩, by decide⟩, by decide, by decide⟩

/-- C16. For an existing user remove answers success; the cart afterwards is
the cart before without the lines of the product, the other lines unchanged
and in order, so it has no line for the product; when the cart had no line for
the product the database is unchanged; and a second remove changes nothing
more. -/
theorem remove_idempotent (db : Db) (userId productId : Nat) (user : User)
    (hu : findUser db.users userId = some user) :
    (remove db userId productId).1 = .ok ∧
    (∃ cart', findUser (remove db userId productId).2.users userId = some ⟨user._id, cart'⟩ ∧
      cart' = user.cart.filter (fun l => l.productId != productId) ∧
      findItem cart' productId = none ∧
      (∀ l, l ∈ cart' ↔ l ∈ user.cart ∧ l.productId ≠ productId) ∧
      List.Sublist cart' user.cart) ∧
    (findItem user.cart productId = none → (remove db userId productId).2 = db) ∧
    remove (remove db userId productId).2 userId productId = remove db userId productId := by
  have hrem := remove_eq db userId productId user hu
  have hu' : findUser (remove db userId productId).2.users userId =
      some ⟨user._id, removeItem user.cart productId⟩ := by
    rw [hrem]; exact findUser_saveUser_self _ hu
  refine ⟨by rw [hrem], ⟨removeItem user.cart productId, hu', rfl, findItem_removeItem _ _,
    fun l => mem_removeItem, List.filter_sublist _⟩, fun hf => ?_, ?_⟩
  · have hself : removeItem user.cart productId = user.cart :=
      removeItem_eq_self ((findItem_eq_none_iff _ _).mp hf)
    have hsave : saveUser db.users ⟨user._id, user.cart⟩ = db.users := saveUser_self hu
    rw [hrem, hself, hsave]
  · have h2 := remove_eq (remove db userId productId).2 userId productId _ hu'
    rw [h2]
    simp only [removeItem_idem]
    have hsave := saveUser_self hu'
    rw [hsave, hrem]

/-- C16, witness: user 9 holds two lines for product 2 around a line for
product 1. -/
theorem remove_idempotent_witness :
    findUser (remove dbCheckoutErrors 9 2).2.users 9 = some ⟨9, [⟨1, 5⟩]⟩ ∧
    remove (remove dbCheckoutErrors 9 2).2 9 2 = remove dbCheckoutErrors 9 2 :=
  ⟨by decide,
   (remove_idempotent dbCheckoutErrors 9 2 ⟨9, [⟨2, 3⟩, ⟨1, 5⟩, ⟨2, 9⟩]⟩ (by decide)).2.2.2⟩

/-- C17. If every cart has at most one line per product and only quantities
of at least 1, as is the case when every cart is empty, then after any sequence
of addOne, setQuantity, remove and checkout requests every user's cart still
has at most one line per product and only quantities of at least 1. -/
theorem carts_stay_well_formed (db : Db) (reqs : List Request) :
    ((∀ u ∈ db.users, u.cart = []) →
      ∀ u ∈ (run db reqs).users,
        (u.cart.map (fun it => it.productId)).Nodup ∧ ∀ it ∈ u.cart, 1 ≤ it.quantity) ∧
    ((∀ u ∈ db.users,
        (u.cart.map (fun it => it.productId)).Nodup ∧ ∀ it ∈ u.cart, 1 ≤ it.quantity) →
      ∀ u ∈ (run db reqs).users,
        (u.cart.map (fun it => it.productId)).Nodup ∧ ∀ it ∈ u.cart, 1 ≤ it.quantity) := by
  constructor
  · intro h
    exact run_carts reqs db (fun u hu => by rw [h u hu]; exact CartWf.nil)
  · intro h
    exact run_carts reqs db h

/-- C17, witness: from the empty cart of the ceiling database, a run that
adds, raises, fails to raise, removes, adds again and checks out. -/
theorem carts_stay_well_formed_witness :
    (∀ u ∈ dbCeiling.users, u.cart = []) ∧
    ∀ u ∈ (run dbCeiling
        [.addOne 7 1, .addOne 7 1, .setQuantity 7 1 3, .setQuantity 7 1 4, .addOne 7 2,
         .remove 7 1, .addOne 7 1, .setQuantity 7 1 0, .addOne 7 1, .checkout 7 0 0]).users,
      (u.cart.map (fun it => it.productId)).Nodup ∧ ∀ it ∈ u.cart, 1 ≤ it.quantity :=
  ⟨by decide, (carts_stay_well_formed dbCeiling _).1 (by decide)⟩

/-- C18. Whether it succeeds or fails, each of addOne, setQuantity and remove
leaves the products and the order archive as they were, keeps every user
document of another user unchanged and in place, and keeps the list of user
identifiers; only the calling user's cart can differ. -/
theorem cart_routes_frame (db : Db) (userId productId : Nat) (quantity : Int) :
    ∀ r ∈ [addOne db userId productId, setQuantity db userId productId quantity,
        remove db userId productId],
      r.2.products = db.products ∧
      r.2.orders = db.orders ∧
      (∀ other, other ≠ userId → findUser r.2.users other = findUser db.users other) ∧
      r.2.users.filter (fun v => v._id != userId) =
        db.users.filter (fun v => v._id != userId) ∧
      r.2.users.map (fun v => v._id) = db.users.map (fun v => v._id) := by
  intro r hr
  rcases cart_route_effect db userId productId quantity r hr with h | ⟨cart, h⟩
  · rw [h]
    exact ⟨rfl, rfl, fun _ _ => rfl, rfl, rfl⟩
  · rw [h]
    refine ⟨rfl, rfl, fun other hne => ?_, filter_saveUser db.users ⟨userId, cart⟩,
      map_id_saveUser _ _⟩
    simp only [findUser_saveUser, hne, if_false]

/-- C18, witness: user 7 of the scenario database sets product 1 to quantity
5; products, orders and user 8 are untouched. -/
theorem cart_routes_frame_witness :
    (setQuantity dbScenario 7 1 5).2.products = dbScenario.products ∧
    (setQuantity dbScenario 7 1 5).2.orders = dbScenario.orders ∧
    findUser (setQuantity dbScenario 7 1 5).2.users 8 = findUser dbScenario.users 8 := by
  have h := cart_routes_frame dbScenario 7 1 5 (setQuantity dbScenario 7 1 5) (by simp)
  exact ⟨h.1, h.2.1, h.2.2.1 8 (by decide)⟩

/-- C19. For an existing user, get answers with one view item for each cart
line whose product resolves, in cart order and skipping the other lines; each
item carries the line's product and quantity and the product's current price,
name and category; and the database, the stored cart included, is
unchanged. -/
theorem getCart_view (db : Db) (userId : Nat) (user : User)
    (hu : findUser db.users userId = some user) :
    ∃ items, getCart db userId = (.ok items, db) ∧
      List.Forall₂
        (fun (l : CartItem) (v : CartViewItem) =>
          v.productId = l.productId ∧ v.quantity = l.quantity ∧
            ∃ p, findProduct db.products l.productId = some p ∧
              v.price = p.price ∧ v.name = p.name ∧ v.category = p.category)
        (user.cart.filter (fun l => (findProduct db.products l.productId).isSome))
        items := by
  refine ⟨_, ?_, getCart_items_forall₂ db.products user.cart⟩
  simp only [getCart, hu]

/-- C19, witness: user 8 holds a line whose product is gone between two lines
that resolve; the view has the two, the stored cart keeps the three. -/
theorem getCart_view_witness :
    getCart dbCheckoutErrors 8 =
      (.ok [⟨2, "Mug", none, 5, 3⟩, ⟨1, "Kettle", none, 10, 5⟩], dbCheckoutErrors) := by
  obtain ⟨items, h, _⟩ := getCart_view dbCheckoutErrors 8 ⟨8, [⟨2, 3⟩, ⟨99, 1⟩, ⟨1, 5⟩]⟩
    (by decide)
  have h1 : (getCart dbCheckoutErrors 8).1 =
      .ok [⟨2, "Mug", none, 5, 3⟩, ⟨1, "Kettle", none, 10, 5⟩] := by decide
  rw [h] at h1 ⊢
  simp only at h1
  rw [h1]

/-- C20. The listing for a user is, view by view, a list of archived orders
that is a rearrangement of exactly the archived orders owned by that user,
each once, in descending order of creation time; the handler leaves the
database unchanged, so a second call answers the same. -/
theorem getMyOrders_listing (db : Db) (userId : Nat) :
    (∃ os : List Order,
      List.Perm os (db.orders.filter (fun o => o.user == userId)) ∧
      List.Pairwise (fun a b => b.createdAt ≤ a.createdAt) os ∧
      List.Forall₂
        (fun (o : Order) (v : OrderView) =>
          v.id = o._id ∧ v.createdAt = o.createdAt ∧ v.subtotal = o.subtotal ∧
            v.tax = o.tax ∧ v.total = o.total ∧ v.items.length = o.items.length)
        os (getMyOrders db userId).1) ∧
    (getMyOrders db userId).2 = db ∧
    (getMyOrders (getMyOrders db userId).2 userId).1 = (getMyOrders db userId).1 := by
  refine ⟨⟨findOrders db.orders userId, ?_, ?_, ?_⟩, rfl, rfl⟩
  · exact List.perm_insertionSort _ _
  · haveI : IsTotal Order (fun a b => b.createdAt ≤ a.createdAt) :=
      ⟨fun a b => le_total _ _⟩
    haveI : IsTrans Order (fun a b => b.createdAt ≤ a.createdAt) :=
      ⟨fun a b c hab hbc => le_trans hbc hab⟩
    exact List.sorted_insertionSort _ _
  · show List.Forall₂ _ _ ((findOrders db.orders userId).map (formatOrder db.products))
    rw [List.forall₂_map_right_iff]
    exact List.forall₂_same.mpr fun o _ => ⟨rfl, rfl, rfl, rfl, rfl, by simp [formatOrder]⟩

/-- C20, witness: of the four archived orders the three of user 7 are listed,
created at times 9, 5 and 2 in that order. -/
theorem getMyOrders_listing_witness :
    (getMyOrders dbArchive 7).1.map (fun v => (v.id, v.createdAt)) =
      [(102, 9), (100, 5), (103, 2)] ∧
    (getMyOrders dbArchive 7).2 = dbArchive :=
  ⟨by decide, (getMyOrders_listing dbArchive 7).2.1⟩

/-- C21 as stated fails: user 7 already has an order created at time 9.
After a successful checkout at time 7, and likewise at time 9, the listing
puts the earlier order, number 100, before the new order, number 200. -/
theorem newest_order_first_counterexample :
    (checkout dbRepeatBuyer 7 7 200).1 = .ok ⟨200, 10, 0.7, 10.7⟩ ∧
    (getMyOrders (checkout dbRepeatBuyer 7 7 200).2 7).1.map (fun v => v.id) = [100, 200] ∧
    (checkout dbRepeatBuyer 7 9 200).1 = .ok ⟨200, 10, 0.7, 10.7⟩ ∧
    (getMyOrders (checkout dbRepeatBuyer 7 9 200).2 7).1.map (fun v => v.id) = [100, 200] :=
  ⟨by decide!, by decide!, by decide!, by decide!⟩

/-- C21, amended. After a successful checkout whose creation time is later
than the creation time of every order the user already had, the order that
checkout created is the first element of the listing for that user, followed
by the listing of the earlier orders. -/
theorem newest_order_first (db : Db) (userId now newId : Nat) (o : OrderSummary)
    (hok : (checkout db userId now newId).1 = .ok o)
    (hnew : ∀ x ∈ db.orders, x.user = userId → x.createdAt < now) :
    ∃ order : Order,
      (checkout db userId now newId).2.orders = db.orders ++ [order] ∧
      order._id = newId ∧ order.createdAt = now ∧
      (getMyOrders (checkout db userId now newId).2 userId).1 =
        formatOrder (checkout db userId now newId).2.products order ::
          (findOrders db.orders userId).map
            (formatOrder (checkout db userId now newId).2.products) := by
  rcases checkout_cases db userId now newId with ⟨_, he⟩ | ⟨_, _, _, he⟩ |
    ⟨u, e, hu', hc, hv, he⟩ | ⟨_, _, _, _, _, _, _, _, he⟩ |
    ⟨u, s, ois, ps, hu', hc, hv, hd, he⟩
  · rw [he] at hok; cases hok
  · rw [he] at hok; cases hok
  · obtain ⟨_, _, _, _, _, h | ⟨_, _, _, h⟩⟩ := validateLoop_populate_error _ _ _ _ _ hv
    · rw [he, h.2] at hok; cases hok
    · rw [he, h] at hok; cases hok
  · rw [he] at hok; cases hok
  · rw [he]
    refine ⟨_, rfl, rfl, rfl, ?_⟩
    simp only [getMyOrders]
    rw [findOrders_append_newest db.orders _ userId (findUser_id hu') hnew]
    rfl

/-- C21, witness of the amended statement: the same user checks out at time
10, after the earlier order of time 9. -/
theorem newest_order_first_witness :
    (getMyOrders (checkout dbRepeatBuyer 7 10 200).2 7).1.map (fun v => v.id) = [200, 100] := by
  obtain ⟨order, _, hid, _, hl⟩ := newest_order_first dbRepeatBuyer 7 10 200
    ⟨200, 10, 0.7, 10.7⟩ (by decide!) (by decide)
  rw [hl, List.map_cons]
  have : (formatOrder (checkout dbRepeatBuyer 7 10 200).2.products order).id = 200 := hid
  rw [this, List.map_map]
  decide

/-- C22. Every view of the order listing reports the stored subtotal, tax and
total of its order and, line by line and in order, the stored quantity and
price at purchase; a line whose product resolves carries the product's name
and category, and a line whose product does not resolve is listed with the
name "Product removed" and an empty category.  The amounts, quantities and
prices are the same whatever the products collection holds. -/
theorem listing_reports_snapshot (db : Db) (userId : Nat) :
    List.Forall₂
      (fun (order : Order) (v : OrderView) =>
        v.subtotal = order.subtotal ∧ v.tax = order.tax ∧ v.total = order.total ∧
        List.Forall₂
          (fun (item : OrderItem) (iv : OrderItemView) =>
            iv.quantity = item.quantity ∧ iv.price = item.priceAtPurchase ∧
            (∀ p, findProduct db.products item.productId = some p →
              iv.name = p.name ∧ iv.category = p.category) ∧
            (findProduct db.products item.productId = none →
              iv.name = "Product removed" ∧ iv.category = some ""))
          order.items v.items)
      (findOrders db.orders userId) (getMyOrders db userId).1 ∧
    ∀ ps : List Product,
      (getMyOrders { db with products := ps } userId).1.map
          (fun v => (v.id, v.subtotal, v.tax, v.total,
            v.items.map (fun iv => (iv.quantity, iv.price)))) =
        (getMyOrders db userId).1.map
          (fun v => (v.id, v.subtotal, v.tax, v.total,
            v.items.map (fun iv => (iv.quantity, iv.price)))) := by
  constructor
  · show List.Forall₂ _ _ ((findOrders db.orders userId).map (formatOrder db.products))
    rw [List.forall₂_map_right_iff]
    refine List.forall₂_same.mpr fun order _ => ⟨rfl, rfl, rfl, ?_⟩
    show List.Forall₂ _ _ (order.items.map _)
    rw [List.forall₂_map_right_iff]
    refine List.forall₂_same.mpr fun item _ => ?_
    cases hp : findProduct db.products item.productId with
    | none => exact ⟨rfl, rfl, fun p h => (by cases h), fun _ => ⟨rfl, rfl⟩⟩
    | some p =>
      refine ⟨rfl, rfl, fun q h => ?_, fun h => (by cases h)⟩
      cases h
      exact ⟨rfl, rfl⟩
  · intro ps
    simp only [getMyOrders, List.map_map]
    apply List.map_congr_left
    intro order _
    simp only [Function.comp, formatOrder, List.map_map, Prod.mk.injEq, true_and]
    apply List.map_congr_left
    intro item _
    simp only [Function.comp]
    cases findProduct ps item.productId <;> cases findProduct db.products item.productId <;> rfl

/-- C23 as stated fails: addOne for the product "Shade", which has no stock,
and setQuantity of six for the product "Kettle", which has five, both answer
InsufficientStock with the message "Not enough stock for this product.",
in which the product's name does not occur. -/
theorem insufficient_stock_message_counterexample :
    (addOne dbCeiling 7 2).1 = .insufficientStock ∧
    findProduct dbCeiling.products 2 = some ⟨2, "Shade", none, 4, 0⟩ ∧
    (addOne dbCeiling 7 2).1.failureMessage = some "Not enough stock for this product." ∧
    ¬ ("Shade".data <:+: "Not enough stock for this product.".data) ∧
    (setQuantity dbPricing 7 1 6).1 = .insufficientStock ∧
    findProduct dbPricing.products 1 = some ⟨1, "Kettle", none, 10, 5⟩ ∧
    (setQuantity dbPricing 7 1 6).1.failureMessage =
      some "Not enough stock for this product." ∧
    ¬ ("Kettle".data <:+: "Not enough stock for this product.".data) := by
  decide

/-- C23, amended. An InsufficientStock failure of checkout carries, and has
in its message, the name of a product of the cart whose line exceeds its
stock.  An InsufficientStock failure of addOne or setQuantity concerns the
product of the request, whose stock the requested quantity exceeds, and
carries the fixed message "Not enough stock for this product." -/
theorem insufficient_stock_message (db : Db) (userId : Nat) :
    (∀ now newId name, (checkout db userId now newId).1 = .insufficientStock name →
      ∃ user, findUser db.users userId = some user ∧
        ∃ it ∈ user.cart, ∃ p, findProduct db.products it.productId = some p ∧
          it.quantity > p.stock ∧ name = p.name ∧
          p.name.data <:+: (CheckoutResponse.insufficientStock name).message.data) ∧
    (∀ productId, (addOne db userId productId).1 = .insufficientStock →
      (addOne db userId productId).1.failureMessage =
        some "Not enough stock for this product." ∧
      ∃ user product, findUser db.users userId = some user ∧
        findProduct db.products productId = some product ∧
        lineQuantity user.cart productId + 1 > product.stock) ∧
    (∀ productId quantity, (setQuantity db userId productId quantity).1 = .insufficientStock →
      (setQuantity db userId productId quantity).1.failureMessage =
        some "Not enough stock for this product." ∧
      ∃ product, findProduct db.products productId = some product ∧
        quantity > product.stock) := by
  refine ⟨fun now newId name h => ?_, fun productId h => ?_, fun productId quantity h => ?_⟩
  · rcases checkout_cases db userId now newId with ⟨_, he⟩ | ⟨_, _, _, he⟩ |
      ⟨u, e, hu, hc, hv, he⟩ | ⟨_, _, _, _, _, _, _, _, he⟩ | ⟨_, _, _, _, _, _, _, _, he⟩
    · rw [he] at h; cases h
    · rw [he] at h; cases h
    · rw [he] at h
      simp only at h
      subst h
      obtain ⟨pre, it, post, hcart, _, hcase | ⟨p, hp, hq, hname⟩⟩ :=
        validateLoop_populate_error _ _ _ _ _ hv
      · cases hcase.2
      · have hn : name = p.name := CheckoutResponse.insufficientStock.inj hname
        refine ⟨u, hu, it, by rw [hcart]; simp, p, hp, hq, hn, ?_⟩
        refine ⟨"Not enough stock for \"".data, "\".".data, ?_⟩
        simp [CheckoutResponse.message, hn, String.data_append]
    · rw [he] at h; cases h
    · rw [he] at h; cases h
  · exact ⟨by rw [h]; rfl, addOne_insufficient db userId productId h⟩
  · exact ⟨by rw [h]; rfl, setQuantity_insufficient db userId productId quantity h⟩

/-- C23, witness of the amended statement: user 9's checkout fails on the
kettle and the message has its name. -/
theorem insufficient_stock_message_witness :
    (checkout dbCheckoutErrors 9 0 0).1 = .insufficientStock "Kettle" ∧
    ∃ user, findUser dbCheckoutErrors.users 9 = some user ∧
      ∃ it ∈ user.cart, ∃ p, findProduct dbCheckoutErrors.products it.productId = some p ∧
        it.quantity > p.stock ∧ "Kettle" = p.name ∧
        p.name.data <:+: (CheckoutResponse.insufficientStock "Kettle").message.data :=
  ⟨by decide!, (insufficient_stock_message dbCheckoutErrors 9).1 0 0 "Kettle" (by decide!)⟩

/-- C24 as stated fails: when the creation of the order rejects, after the
one stock decrement of user 7's checkout was saved, the handler answers a
server error, the stock of product 1 stays lowered from 5 to 2, no order
exists and the cart is as it was. -/
theorem checkout_write_failure_counterexample :
    (checkoutFaulty dbScenario 7 0 0 (some 1)).1 = .serverError ∧
    findProduct dbScenario.products 1 = some ⟨1, "P", some "Books", 20, 5⟩ ∧
    findProduct (checkoutFaulty dbScenario 7 0 0 (some 1)).2.products 1 =
      some ⟨1, "P", some "Books", 20, 2⟩ ∧
    (checkoutFaulty dbScenario 7 0 0 (some 1)).2.orders = [] ∧
    (checkoutFaulty dbScenario 7 0 0 (some 1)).2.users = dbScenario.users :=
  ⟨by decide!, by decide, by decide!, by decide!, by decide!⟩

/-- C24, amended. When a write of checkout's commit phase rejects, the
handler answers a server error and undoes nothing: the users, carts included,
are as before; the products are those left by the stock decrements of the
first lines of the cart, up to the write that rejected; and either the archive
is as before or, when it was the cart clear that rejected, the order was
appended after all the stock decrements.  Any other answer, and the run in
which no write rejects, is the answer of checkout itself. -/
theorem checkout_write_failure (db : Db) (userId now newId : Nat) (budget : Nat) :
    ((checkoutFaulty db userId now newId (some budget)).1 = .serverError →
      ∃ user, findUser db.users userId = some user ∧
        (checkoutFaulty db userId now newId (some budget)).2.users = db.users ∧
        (∃ n, decrementLoop ((populate db.products user.cart).take n) db.products =
          .ok (checkoutFaulty db userId now newId (some budget)).2.products) ∧
        ((checkoutFaulty db userId now newId (some budget)).2.orders = db.orders ∨
          ∃ order : Order,
            (checkoutFaulty db userId now newId (some budget)).2.orders =
              db.orders ++ [order] ∧
            order.user = userId ∧
            decrementLoop (populate db.products user.cart) db.products =
              .ok (checkoutFaulty db userId now newId (some budget)).2.products)) ∧
    ((checkoutFaulty db userId now newId (some budget)).1 ≠ .serverError →
      checkoutFaulty db userId now newId (some budget) = checkout db userId now newId) ∧
    checkoutFaulty db userId now newId none = checkout db userId now newId := by
  refine ⟨?_, ?_, checkoutFaulty_none db userId now newId⟩
  · intro h
    unfold checkoutFaulty at h ⊢
    cases hv : checkoutValidate db userId with
    | error e =>
      simp only [hv] at h
      exact absurd h (checkoutValidate_error hv now newId).2.1
    | ok pending =>
      obtain ⟨hu, _, hcart, _⟩ := checkoutValidate_ok hv
      refine ⟨pending.user, hu, ?_⟩
      simp only [hv] at h ⊢
      rw [← hcart]
      cases hd : decrementLoopFaulty pending.cart db.products (some budget) with
      | error ps =>
        exact ⟨rfl, decrementLoopFaulty_error _ _ _ _ hd, Or.inl rfl⟩
      | ok r =>
        obtain ⟨ps, left⟩ := r
        have hfull := decrementLoopFaulty_ok _ _ _ _ _ hd
        have hall : ∃ n, decrementLoop (pending.cart.take n) db.products = .ok ps :=
          ⟨pending.cart.length, by rw [List.take_length]; exact hfull⟩
        simp only [hd] at h ⊢
        cases hs : spendWrite left with
        | none => exact ⟨rfl, hall, Or.inl rfl⟩
        | some left' =>
          simp only [hs] at h ⊢
          cases hs' : spendWrite left' with
          | none => exact ⟨rfl, hall, Or.inr ⟨_, rfl, findUser_id hu, hfull⟩⟩
          | some _ => simp [hs'] at h
  · intro h
    unfold checkoutFaulty at h ⊢
    cases hv : checkoutValidate db userId with
    | error e => exact ((checkoutValidate_error hv now newId).1).symm
    | ok pending =>
      simp only [hv] at h ⊢
      rw [checkout_eq_commit hv now newId, checkoutCommit]
      cases hd : decrementLoopFaulty pending.cart db.products (some budget) with
      | error ps => simp [hd] at h
      | ok r =>
        obtain ⟨ps, left⟩ := r
        rw [decrementLoopFaulty_ok _ _ _ _ _ hd]
        simp only [hd] at h ⊢
        cases hs : spendWrite left with
        | none => simp [hs] at h
        | some left' =>
          simp only [hs] at h ⊢
          cases hs' : spendWrite left' with
          | none => simp [hs'] at h
          | some _ => rfl

/-- C24, witness of the amended statement: the cart clear of user 7's
checkout rejects; the order is archived, the stock is lowered and the cart is
kept. -/
theorem checkout_write_failure_witness :
    (checkoutFaulty dbScenario 7 0 0 (some 2)).1 = .serverError ∧
    ∃ user, findUser dbScenario.users 7 = some user ∧
      (checkoutFaulty dbScenario 7 0 0 (some 2)).2.users = dbScenario.users ∧
      (∃ n, decrementLoop ((populate dbScenario.products user.cart).take n)
          dbScenario.products =
        .ok (checkoutFaulty dbScenario 7 0 0 (some 2)).2.products) ∧
      ((checkoutFaulty dbScenario 7 0 0 (some 2)).2.orders = dbScenario.orders ∨
        ∃ order : Order,
          (checkoutFaulty dbScenario 7 0 0 (some 2)).2.orders =
            dbScenario.orders ++ [order] ∧
          order.user = 7 ∧
          decrementLoop (populate dbScenario.products user.cart) dbScenario.products =
            .ok (checkoutFaulty dbScenario 7 0 0 (some 2)).2.products) :=
  ⟨by decide!, (checkout_write_failure dbScenario 7 0 0 2).1 (by decide!)⟩

/-- C25 as stated fails: when both users validate before either commits,
both checkouts succeed and two orders are created for the single unit in
stock; the stock ends at 0. -/
theorem concurrent_checkout_counterexample :
    ∃ p1 p2, checkoutValidate dbRace 7 = .ok p1 ∧ checkoutValidate dbRace 8 = .ok p2 ∧
      (checkoutCommit dbRace p1 0 0).1 = .ok ⟨0, 12, 0.84, 12.84⟩ ∧
      (checkoutCommit (checkoutCommit dbRace p1 0 0).2 p2 1 1).1 =
        .ok ⟨1, 12, 0.84, 12.84⟩ ∧
      (checkoutCommit (checkoutCommit dbRace p1 0 0).2 p2 1 1).2.orders.length = 2 ∧
      (checkoutCommit (checkoutCommit dbRace p1 0 0).2 p2 1 1).2.products =
        [⟨1, "Lamp", none, 12, 0⟩] :=
  ⟨_, _, rfl, rfl, by decide!, by decide!, by decide!, by decide!⟩

/-- C25, amended. Two users each hold a cart with quantity 1 of a product
with stock 1.  If both requests validate before either commits, both
checkouts succeed, two orders are created and the stock ends at 0.  If one
request runs to its end before the other starts, the first succeeds, the
second answers InsufficientStock, one order is created and the stock ends at
0.  Validation writes nothing, so with the roles of the users exchanged these
are all the orders in which the two validations and the two commits can
run. -/
theorem concurrent_checkout (db : Db) (u1 u2 productId : Nat) (product : Product)
    (now1 id1 now2 id2 : Nat)
    (h12 : u1 ≠ u2)
    (hu1 : findUser db.users u1 = some ⟨u1, [⟨productId, 1⟩]⟩)
    (hu2 : findUser db.users u2 = some ⟨u2, [⟨productId, 1⟩]⟩)
    (hp : findProduct db.products productId = some product)
    (hs : product.stock = 1) :
    (∃ p1 p2, checkoutValidate db u1 = .ok p1 ∧ checkoutValidate db u2 = .ok p2 ∧
      (∃ o1, (checkoutCommit db p1 now1 id1).1 = .ok o1) ∧
      (∃ o2, (checkoutCommit (checkoutCommit db p1 now1 id1).2 p2 now2 id2).1 = .ok o2) ∧
      (∃ a b : Order,
        (checkoutCommit (checkoutCommit db p1 now1 id1).2 p2 now2 id2).2.orders =
          db.orders ++ [a, b] ∧ a.user = u1 ∧ b.user = u2) ∧
      findProduct (checkoutCommit (checkoutCommit db p1 now1 id1).2 p2 now2 id2).2.products
          productId = some { product with stock := 0 }) ∧
    ((∃ o1, (checkout db u1 now1 id1).1 = .ok o1) ∧
      (checkout (checkout db u1 now1 id1).2 u2 now2 id2).1 =
        .insufficientStock product.name ∧
      (∃ a : Order,
        (checkout (checkout db u1 now1 id1).2 u2 now2 id2).2.orders = db.orders ++ [a] ∧
        a.user = u1) ∧
      findProduct (checkout (checkout db u1 now1 id1).2 u2 now2 id2).2.products productId =
        some { product with stock := 0 }) := by
  have hid : product._id = productId := findProduct_id hp
  have hp' : findProduct db.products product._id = some product := by rw [hid]; exact hp
  have hle : (1 : Int) ≤ product.stock := by omega
  obtain ⟨p1, hv1, hp1u, hp1c⟩ := (checkoutValidate_single db u1 productId product hu1 hp).1 hle
  obtain ⟨p2, hv2, hp2u, hp2c⟩ := (checkoutValidate_single db u2 productId product hu2 hp).1 hle
  have hp1id : p1.user._id = u1 := by rw [hp1u]
  have hp2id : p2.user._id = u2 := by rw [hp2u]
  obtain ⟨hok1, hprod1, husers1, a, ha, hau⟩ :=
    checkoutCommit_single_effect db p1 now1 id1 product product hp1c hp'
  have hclamp1 : (if product.stock - 1 < 0 then 0 else product.stock - 1) = 0 := by
    rw [hs]; simp
  rw [hclamp1] at hprod1
  rw [hp1id] at husers1 hau
  have hprod1' : findProduct (checkoutCommit db p1 now1 id1).2.products productId =
      some { product with stock := 0 } := by rw [← hid]; exact hprod1
  constructor
  · refine ⟨p1, p2, hv1, hv2, hok1, ?_⟩
    obtain ⟨hok2, hprod2, _, b, hb, hbu⟩ :=
      checkoutCommit_single_effect (checkoutCommit db p1 now1 id1).2 p2 now2 id2 product
        { product with stock := 0 } hp2c hprod1
    rw [hp2id] at hbu
    refine ⟨hok2, ⟨a, b, ?_, hau, hbu⟩, ?_⟩
    · rw [hb, ha]; simp
    · rw [← hid, hprod2]; simp
  · rw [checkout_eq_commit hv1 now1 id1]
    have hu2' : findUser (checkoutCommit db p1 now1 id1).2.users u2 =
        some ⟨u2, [⟨productId, 1⟩]⟩ := by
      rw [husers1 u2 (fun e => h12 e.symm)]; exact hu2
    have hv2' := (checkoutValidate_single _ u2 productId _ hu2' hprod1').2 (by simp)
    rw [(checkoutValidate_error hv2' now2 id2).1]
    exact ⟨hok1, rfl, ⟨a, ha, hau⟩, hprod1'⟩

/-- C25, witness of the amended statement: users 7 and 8 and the lamp with
one unit in stock. -/
theorem concurrent_checkout_witness :
    (∃ o1, (checkout dbRace 7 0 0).1 = .ok o1) ∧
    (checkout (checkout dbRace 7 0 0).2 8 1 1).1 = .insufficientStock "Lamp" :=
  have h := (concurrent_checkout dbRace 7 8 1 ⟨1, "Lamp", none, 12, 1⟩ 0 0 1 1
    (by decide) (by decide) (by decide) (by decide) (by decide)).2
  ⟨h.1, h.2.1⟩

/-- C26. Two users each hold quantity 1 of a product with stock 1 and check
out one after the other: the first checkout succeeds, creates one order and
leaves stock 0; the second answers InsufficientStock for that product and
changes nothing, so the stock stays 0, the second user's cart is intact and
there is no second order. -/
theorem checkout_arbitrates (db : Db) (u1 u2 productId : Nat) (product : Product)
    (now1 id1 now2 id2 : Nat)
    (h12 : u1 ≠ u2)
    (hu1 : findUser db.users u1 = some ⟨u1, [⟨productId, 1⟩]⟩)
    (hu2 : findUser db.users u2 = some ⟨u2, [⟨productId, 1⟩]⟩)
    (hp : findProduct db.products productId = some product)
    (hs : product.stock = 1) :
    (∃ o1, (checkout db u1 now1 id1).1 = .ok o1) ∧
    findProduct (checkout db u1 now1 id1).2.products productId =
      some { product with stock := 0 } ∧
    (∃ order : Order,
      (checkout db u1 now1 id1).2.orders = db.orders ++ [order] ∧ order.user = u1) ∧
    findUser (checkout db u1 now1 id1).2.users u2 = some ⟨u2, [⟨productId, 1⟩]⟩ ∧
    checkout (checkout db u1 now1 id1).2 u2 now2 id2 =
      (.insufficientStock product.name, (checkout db u1 now1 id1).2) := by
  have hid : product._id = productId := findProduct_id hp
  have hp' : findProduct db.products product._id = some product := by rw [hid]; exact hp
  have hle : (1 : Int) ≤ product.stock := by omega
  obtain ⟨p1, hv1, hp1u, hp1c⟩ := (checkoutValidate_single db u1 productId product hu1 hp).1 hle
  have hp1id : p1.user._id = u1 := by rw [hp1u]
  obtain ⟨hok1, hprod1, husers1, a, ha, hau⟩ :=
    checkoutCommit_single_effect db p1 now1 id1 product product hp1c hp'
  have hclamp1 : (if product.stock - 1 < 0 then 0 else product.stock - 1) = 0 := by
    rw [hs]; simp
  rw [hclamp1] at hprod1
  rw [hp1id] at husers1 hau
  rw [checkout_eq_commit hv1 now1 id1]
  have hu2' : findUser (checkoutCommit db p1 now1 id1).2.users u2 =
      some ⟨u2, [⟨productId, 1⟩]⟩ := by
    rw [husers1 u2 (fun e => h12 e.symm)]; exact hu2
  have hprod1' : findProduct (checkoutCommit db p1 now1 id1).2.products productId =
      some { product with stock := 0 } := by rw [← hid]; exact hprod1
  have hv2' := (checkoutValidate_single _ u2 productId _ hu2' hprod1').2 (by simp)
  exact ⟨hok1, hprod1', ⟨a, ha, hau⟩, hu2', (checkoutValidate_error hv2' now2 id2).1⟩

/-- C26, witness: both users put the lamp in their carts while its stock is
1, then user 7 and user 8 check out in turn. -/
theorem checkout_arbitrates_witness :
    checkout (checkout dbRace 7 0 0).2 8 1 1 =
      (.insufficientStock "Lamp", (checkout dbRace 7 0 0).2) ∧
    findProduct (checkout dbRace 7 0 0).2.products 1 = some ⟨1, "Lamp", none, 12, 0⟩ :=
  have h := checkout_arbitrates dbRace 7 8 1 ⟨1, "Lamp", none, 12, 1⟩ 0 0 1 1
    (by decide) (by decide) (by decide) (by decide) (by decide)
  ⟨h.2.2.2.2, h.2.1⟩

/-- C27. When checkout of a cart succeeds, the subtotal, tax and total that
the cart page computes from the items that get answers on the same database
are the subtotal, tax and total stored in the order. -/
theorem cart_page_matches_order (db : Db) (userId now newId : Nat) (o : OrderSummary)
    (hok : (checkout db userId now newId).1 = .ok o) :
    ∃ items order,
      getCart db userId = (.ok items, db) ∧
      (checkout db userId now newId).2.orders = db.orders ++ [order] ∧
      cartPageTotals items = (order.subtotal, order.tax, order.total) := by
  rcases checkout_cases db userId now newId with ⟨_, he⟩ | ⟨_, _, _, he⟩ |
    ⟨u, e, hu, hc, hv, he⟩ | ⟨_, _, _, _, _, _, _, _, he⟩ |
    ⟨u, s, ois, ps, hu, hc, hv, hd, he⟩
  · rw [he] at hok; cases hok
  · rw [he] at hok; cases hok
  · obtain ⟨_, _, _, _, _, h | ⟨_, _, _, h⟩⟩ := validateLoop_populate_error _ _ _ _ _ hv
    · rw [he, h.2] at hok; cases hok
    · rw [he, h] at hok; cases hok
  · rw [he] at hok; cases hok
  · obtain ⟨items, hget, hsum⟩ := getCart_foldl db userId u 0 [] s ois hu hv
    rw [he]
    refine ⟨items, _, hget, rfl, ?_⟩
    simp only [cartPageTotals, hsum]

/-- C27, witness: the cart of two lines priced 10.00 and 5.00; the cart page
shows 35.00, 2.45 and 37.45. -/
theorem cart_page_matches_order_witness :
    ∃ items order,
      getCart dbPricing 7 = (.ok items, dbPricing) ∧
      (checkout dbPricing 7 0 0).2.orders = dbPricing.orders ++ [order] ∧
      cartPageTotals items = (order.subtotal, order.tax, order.total) :=
  cart_page_matches_order dbPricing 7 0 0 ⟨0, 35, 2.45, 37.45⟩ (by decide!)

/-- C28 as stated fails.  Three units at a price of 0.10, a non-negative whole
number of cents: the subtotal is the double that prints as
0.30000000000000004, not the `Number` 0.3 that `round2` would make of it; the
tax is 0.02 and the total is 0.32, while subtotal plus tax is a double above
0.32 that the final `round2` changes. -/
theorem whole_cents_counterexample :
    TwoDecimals (1 / 10) ∧ (0 : ℚ) ≤ 1 / 10 ∧ (0 : Int) < 3 ∧
    checkoutTotals64 [(1 / 10, 3)] =
      (.finite (1351079888211149 / 4503599627370496), Num64.ofRat 0.02, Num64.ofRat 0.32) ∧
    (checkoutTotals64 [(1 / 10, 3)]).1 ≠ Num64.ofRat 0.3 ∧
    Num64.toFixed2 (checkoutTotals64 [(1 / 10, 3)]).1 = Num64.ofRat 0.3 ∧
    Num64.toFixed2
        (Num64.add (checkoutTotals64 [(1 / 10, 3)]).1 (checkoutTotals64 [(1 / 10, 3)]).2.1) ≠
      Num64.add (checkoutTotals64 [(1 / 10, 3)]).1 (checkoutTotals64 [(1 / 10, 3)]).2.1 ∧
    (checkoutTotals64 [(1 / 10, 3)]).2.2 ≠
      Num64.add (checkoutTotals64 [(1 / 10, 3)]).1 (checkoutTotals64 [(1 / 10, 3)]).2.1 :=
  ⟨by decide!, by decide!, by decide, by decide!, by decide!, by decide!, by decide!,
    by decide!⟩

/-- C28, amended. On doubles, if every unit price is non-negative and every
quantity is a positive integer that a `Number` holds exactly, then the
subtotal, the tax and the total are never negative nor `NaN`, the tax and the
total are each the `Number` of a whole number of cents (or `Infinity`, or a
finite value from `10 ^ 21` up, which `toFixed` leaves as it is), and the
total is `round2` of the subtotal plus the tax.  That the prices are whole
numbers of cents is not needed. -/
theorem whole_cents_totals64 (lines : List (ℚ × Int))
    (hprice : ∀ l ∈ lines, 0 ≤ l.1)
    (hqty : ∀ l ∈ lines, 0 < l.2 ∧ Num64.ofRat (l.2 : ℚ) = .finite (l.2 : ℚ)) :
    (checkoutTotals64 lines).1.NonNeg ∧
    (checkoutTotals64 lines).2.1.NonNeg ∧ (checkoutTotals64 lines).2.1.IsCentsOrLarge ∧
    (checkoutTotals64 lines).2.2.NonNeg ∧ (checkoutTotals64 lines).2.2.IsCentsOrLarge ∧
    (checkoutTotals64 lines).2.2 =
      Num64.toFixed2 (Num64.add (checkoutTotals64 lines).1 (checkoutTotals64 lines).2.1) := by
  have hs : (checkoutTotals64 lines).1.NonNeg :=
    Num64.nonNeg_foldl lines hprice hqty _ (le_refl (0 : ℚ))
  have ht : ((checkoutTotals64 lines).1.mul (Num64.ofRat (7 / 100))).NonNeg := by
    rw [Num64.ofRat_taxRate]
    exact Num64.nonNeg_mul _ _ hs (by norm_num)
  have htax := Num64.toFixed2_nonNeg _ ht
  have htot := Num64.toFixed2_nonNeg _ (Num64.nonNeg_add _ _ hs htax.1)
  exact ⟨hs, htax.1, htax.2, htot.1, htot.2, rfl⟩

/-- C28, witness: the scenario line of three units at 20.00. -/
theorem whole_cents_totals64_witness :
    (checkoutTotals64 [(20, 3)]).1.NonNeg ∧
    (checkoutTotals64 [(20, 3)]).2.1.NonNeg ∧ (checkoutTotals64 [(20, 3)]).2.1.IsCentsOrLarge ∧
    (checkoutTotals64 [(20, 3)]).2.2.NonNeg ∧ (checkoutTotals64 [(20, 3)]).2.2.IsCentsOrLarge ∧
    (checkoutTotals64 [(20, 3)]).2.2 =
      Num64.toFixed2
        (Num64.add (checkoutTotals64 [(20, 3)]).1 (checkoutTotals64 [(20, 3)]).2.1) :=
  whole_cents_totals64 [(20, 3)] (by decide!) (by decide!)

/-- C22, witness: the listing of user 7, whose newest order holds a line of a
product that is gone, reports the same amounts, quantities and prices when
every product is deleted. -/
theorem listing_reports_snapshot_witness :
    ((getMyOrders dbArchive 7).1.map (fun v => v.items)).head? =
      some [⟨"Product removed", some "", 1, 2⟩] ∧
    (getMyOrders { dbArchive with products := [] } 7).1.map
        (fun v => (v.id, v.subtotal, v.tax, v.total,
          v.items.map (fun iv => (iv.quantity, iv.price)))) =
      (getMyOrders dbArchive 7).1.map
        (fun v => (v.id, v.subtotal, v.tax, v.total,
          v.items.map (fun iv => (iv.quantity, iv.price)))) :=
  ⟨by decide, (listing_reports_snapshot dbArchive 7).2 []⟩

end ShoppingCart
